import Mathlib

/-!
# Braille Quest: lesson instruction pacer

A shallow embedding of the lesson sequencer (`InstructionEngine`), the step
pacer (`LessonPacer`) and the Braille lookup tables of the application
(`src/app.js`, `src/braille-data.js`), with the properties of the
specification stated over it.

Conventions of the embedding:

* JavaScript strings are `String`; character-level tests go through `String.data`.
* The counters of the sequencer (`currentRunId`, `lessonInitToken`, ...) are
  `Nat`: they start at 0 and only grow by 1, so the 2^53 limit of exact
  JavaScript integers is out of reach.
* Durations are exact rationals (milliseconds); rounding of doubles is not modelled.
* Objects with mutable fields become a `State` record passed explicitly; the
  browser timer table is part of that record.
* The DOM and the settings are read through an `Env` record given to each operation.
-/

namespace BrailleQuest

/-! ## Braille data (`src/braille-data.js`) -/

/-- A dot pattern: the array of raised dot numbers, in table order. -/
abbrev Dots := List Nat

/-- Own keys of a JavaScript object literal used as a lookup table. -/
abbrev Table := List (String × Dots)

/-- Property read `table[key]`; `none` stands for `undefined`. -/
def Table.get (t : Table) (key : String) : Option Dots :=
  t.lookup key

def BRAILLE_ALPHABET : Table :=
  [("a", [1]), ("b", [1, 2]), ("c", [1, 4]), ("d", [1, 4, 5]), ("e", [1, 5]),
   ("f", [1, 2, 4]), ("g", [1, 2, 4, 5]), ("h", [1, 2, 5]), ("i", [2, 4]),
   ("j", [2, 4, 5]), ("k", [1, 3]), ("l", [1, 2, 3]), ("m", [1, 3, 4]),
   ("n", [1, 3, 4, 5]), ("ñ", [1, 2, 4, 5, 6]), ("o", [1, 3, 5]),
   ("p", [1, 2, 3, 4]), ("q", [1, 2, 3, 4, 5]), ("r", [1, 2, 3, 5]),
   ("s", [2, 3, 4]), ("t", [2, 3, 4, 5]), ("u", [1, 3, 6]), ("v", [1, 2, 3, 6]),
   ("w", [2, 4, 5, 6]), ("x", [1, 3, 4, 6]), ("y", [1, 3, 4, 5, 6]),
   ("z", [1, 3, 5, 6])]

def BRAILLE_ACCENTS : Table :=
  [("á", [1, 2, 3, 5, 6]), ("é", [2, 3, 4, 6]), ("í", [3, 4]), ("ó", [3, 4, 6]),
   ("ú", [2, 3, 4, 5, 6]), ("ü", [1, 2, 5, 6])]

/-- The entry `SPECIAL_SIGNS.capital`. -/
def SPECIAL_SIGNS_capital : Dots := [4, 6]

/-- The entry `SPECIAL_SIGNS.number`. -/
def SPECIAL_SIGNS_number : Dots := [3, 4, 5, 6]

def BRAILLE_NUMBERS : Table :=
  [("1", [1]), ("2", [1, 2]), ("3", [1, 4]), ("4", [1, 4, 5]), ("5", [1, 5]),
   ("6", [1, 2, 4]), ("7", [1, 2, 4, 5]), ("8", [1, 2, 5]), ("9", [2, 4]),
   ("0", [2, 4, 5])]

def BRAILLE_SYMBOLS : Table :=
  [(".", [3]), (",", [2]), (";", [2, 3]), (":", [2, 5]), ("?", [2, 6]),
   ("¿", [2, 6]), ("!", [2, 3, 5]), ("¡", [2, 3, 5]), ("(", [2, 3, 5, 6]),
   (")", [2, 3, 5, 6]), ("-", [3, 6]), ("\"", [2, 3, 6]), ("\x27", [4])]

def BRAILLE_MATH : Table :=
  [("+", [2, 3, 5]), ("−", [3, 6]), ("×", [1, 6]), ("÷", [3, 4]), ("=", [2, 3, 5, 6])]

def BRAILLE_DIGITAL : Table :=
  [("@", [5]), ("%", [3, 4, 6]), ("#", [3, 4, 5, 6]), ("/", [3, 4]),
   ("&", [1, 2, 3, 4, 6])]

/-- The table `DOT_POSITIONS`; a key outside 1..6 reads `undefined`, which a
template literal prints as the text "undefined". -/
def DOT_POSITIONS (dotNum : Nat) : String :=
  match dotNum with
  | 1 => "arriba izquierda"
  | 2 => "centro izquierda"
  | 3 => "abajo izquierda"
  | 4 => "arriba derecha"
  | 5 => "centro derecha"
  | 6 => "abajo derecha"
  | _ => "undefined"

/-! ## JavaScript string helpers -/

/-- The test `/[A-Z]/.test(text)`: some character lies in the range A to Z. -/
def testUpperAZ (text : String) : Bool :=
  text.data.any (fun c => decide (65 ≤ c.toNat ∧ c.toNat ≤ 90))

/-- The test `/[0-9]/.test(text)`: some character is an ASCII digit. -/
def testDigit (text : String) : Bool :=
  text.data.any (fun c => decide (48 ≤ c.toNat ∧ c.toNat ≤ 57))

/-- Lower-case form of one character as `String.prototype.toLowerCase` gives
it, for the characters whose lower-case form is a key of a Braille table:
ASCII capitals, the capitals of the Latin-1 block (U+00C0 to U+00DE, the
multiplication sign U+00D7 apart) and the Kelvin sign U+212A. Every other
character is left as it is. -/
def lowerChar (c : Char) : Char :=
  if 65 ≤ c.toNat ∧ c.toNat ≤ 90 then Char.ofNat (c.toNat + 32)
  else if 192 ≤ c.toNat ∧ c.toNat ≤ 222 ∧ c.toNat ≠ 215 then Char.ofNat (c.toNat + 32)
  else if c.toNat = 8490 then Char.ofNat 107
  else c

/-- The call `text.toLowerCase()`. -/
def toLowerCase (text : String) : String :=
  String.mk (text.data.map lowerChar)

/-- A lesson symbol as the sequencer reads it from `letters[i]`: a string, or
`none` for a `null` or `undefined` entry (on which `toLowerCase` throws). -/
abbrev Sym := Option String

/-! ## Symbol presentation (`playNextLetter`, `src/app.js` lines 1937-1965) -/

/-- The local variables that `playNextLetter` fills while it resolves the
current symbol. -/
structure Presentation where
  isMultiCell : Bool
  prefixDots : Option Dots
  mainDots : Option Dots
  prefixLabel : String
  mainLabel : String
deriving DecidableEq, Repr

/-- Resolution of `char` into one or two cells, the `if / else if` chain
of `playNextLetter`. The result `none` is the `TypeError` thrown by
`char.toLowerCase()` when `char` is not a string. -/
def resolvePresentation (char : Sym) : Option Presentation :=
  match char with
  | none => none
  | some ch =>
    if testUpperAZ ch then
      some { isMultiCell := true
             prefixDots := some SPECIAL_SIGNS_capital
             mainDots := BRAILLE_ALPHABET.get (toLowerCase ch)
             prefixLabel := "Mayúscula"
             mainLabel := toLowerCase ch }
    else if testDigit ch then
      some { isMultiCell := true
             prefixDots := some SPECIAL_SIGNS_number
             mainDots := BRAILLE_NUMBERS.get ch
             prefixLabel := "Número"
             mainLabel := ch }
    else if (BRAILLE_SYMBOLS.get ch).isSome then
      some { isMultiCell := false
             prefixDots := none
             mainDots := BRAILLE_SYMBOLS.get ch
             prefixLabel := ""
             mainLabel := ch }
    else
      some { isMultiCell := false
             prefixDots := none
             mainDots := BRAILLE_ALPHABET.get (toLowerCase ch)
             prefixLabel := ""
             mainLabel := ch }

/-- The symbol made of the single character `c`. -/
def symOfChar (c : Char) : Sym := some (String.mk [c])

/-! ## Timing constants (`TIMING`, `src/app.js` lines 863-874) -/

/-- The keys of `TIMING` that the sequencer waits on. -/
inductive TimingKey
  | INTRO_PAUSE
  | PREFIX_DOT
  | INTER_CELL
  | MAIN_DOT
  | DOT_GAP
  | AUTO_ADVANCE
  | LESSON_INIT_TIMEOUT
  | AUDIO_STEP_TIMEOUT
deriving DecidableEq, Repr

/-- The value of each `TIMING` key, in milliseconds. -/
def TIMING : TimingKey → Nat
  | .INTRO_PAUSE => 200
  | .PREFIX_DOT => 280
  | .INTER_CELL => 350
  | .MAIN_DOT => 400
  | .DOT_GAP => 100
  | .AUTO_ADVANCE => 8000
  | .LESSON_INIT_TIMEOUT => 7000
  | .AUDIO_STEP_TIMEOUT => 7000

/-! ## Sequencer state -/

/-- The values of `InstructionEngine.lessonStatus`. -/
inductive LessonStatus
  | idle
  | loading
  | ready
  | error
deriving DecidableEq, Repr

/-- A lesson as the sequencer reads it: `id` and `letters`. The value `none`
for `letters` is any value that is not an array. -/
structure Lesson where
  id : String
  letters : Option (List Sym)
deriving DecidableEq, Repr

/-- What a pending browser timer runs when it fires. -/
inductive TimerCallback
  | initWatchdog (initToken : Nat)
  | autoAdvance
  | pacerResolve
deriving DecidableEq, Repr

/-- Observable calls made by the sequencer: the `debugLesson` records of the
lesson lifecycle and the calls into the collaborators. -/
inductive Event
  | lessonInit (lessonId : String) (reason : String)
  | lessonInitSkipped (lessonId : String) (reason : String)
  | lessonInitRetry (lessonId : String) (retryCount : Nat)
  | lessonInitError
  | lessonStatus (prev next : LessonStatus)
  | lessonStarted (lessonId : String) (stepIndex : Nat)
  | lessonStep (lessonId : String) (stepIndex : Nat)
  | showInitError
  | resetInitUi
  | navigateTo (screenId : String)
  | audioStop
  | gameStartLevel (levelId : String) (skipIntro : Bool)
deriving DecidableEq, Repr

/-- The mutable fields of `InstructionEngine` and `LessonPacer`, the table of
pending browser timers they armed, and the trace of observable calls. Timer
ids are positive, hence truthy, as `setTimeout` returns them. -/
structure State where
  currentLevel : Option Lesson
  currentLetterIdx : Nat
  isAnimationRunning : Bool
  currentRunId : Nat
  lessonStatus : LessonStatus
  lessonInitToken : Nat
  lessonInitRetryCount : Nat
  initWatchdogId : Option Nat
  hasStartedOnce : Bool
  animationTimeout : Option Nat
  pendingTimerId : Option Nat
  timers : List (Nat × TimerCallback)
  nextTimerId : Nat
  trace : List Event
deriving DecidableEq, Repr

/-- What the sequencer reads from the page and from the application state
when an operation runs. -/
structure Env where
  onInstructionScreen : Bool
  hasProgressDots : Bool
  hasCellContainer : Bool
  hasPrefixCell : Bool
  hasMainCell : Bool
  gameNavigations : Nat
deriving DecidableEq, Repr

/-- The object literal of `InstructionEngine` before any call. -/
def InstructionEngine.init : State :=
  { currentLevel := none
    currentLetterIdx := 0
    isAnimationRunning := false
    currentRunId := 0
    lessonStatus := .idle
    lessonInitToken := 0
    lessonInitRetryCount := 0
    initWatchdogId := none
    hasStartedOnce := false
    animationTimeout := none
    pendingTimerId := none
    timers := []
    nextTimerId := 1
    trace := [] }

/-- The call `debugLesson(...)` or a call into a collaborator, recorded. -/
def emit (e : Event) (s : State) : State :=
  { s with trace := s.trace ++ [e] }

/-- The browser call `clearTimeout(id)`; `none` is an `undefined` or `null` handle. -/
def clearTimeout (id : Option Nat) (s : State) : State :=
  match id with
  | none => s
  | some i => { s with timers := s.timers.filter (fun t => t.1 != i) }

/-- The browser call `setTimeout(callback, delay)`: a fresh id, now pending. -/
def setTimeout (cb : TimerCallback) (s : State) : Nat × State :=
  (s.nextTimerId,
   { s with timers := s.timers ++ [(s.nextTimerId, cb)], nextTimerId := s.nextTimerId + 1 })

/-! ## Step pacer (`LessonPacer`, `src/app.js` lines 1638-1701) -/

/-- The method `LessonPacer.cancel`. -/
def LessonPacer.cancel (s : State) : State :=
  match s.pendingTimerId with
  | some id => { clearTimeout (some id) s with pendingTimerId := none }
  | none => s

/-- The statement `this.pendingTimerId = setTimeout(resolve, ...)` of `pace`. -/
def LessonPacer.armTimer (s : State) : State :=
  let r := setTimeout .pacerResolve s
  { r.2 with pendingTimerId := some r.1 }

/-- The method `AudioService.stop`, seen from the sequencer. -/
def AudioService.stop (s : State) : State :=
  emit .audioStop s

/-- The method `LessonPacer.pace` up to its first suspension: in silent mode the
pacing timer is armed at once; otherwise `speakAndWait` is started, which stops
the utterance in flight. -/
def LessonPacer.paceBegin (shouldSpeak : Bool) (s : State) : State :=
  if shouldSpeak then AudioService.stop s else LessonPacer.armTimer s

/-- The method `LessonPacer.pace` when `speakAndWait` has returned:
`elapsedBelowEstimate` is the test `elapsed < estimatedDuration`. -/
def LessonPacer.paceAfterSpeech (elapsedBelowEstimate : Bool) (s : State) : State :=
  if elapsedBelowEstimate then LessonPacer.armTimer s else s

/-- The statement `this.pendingTimerId = null` that `pace` runs once its timer
has resolved the awaited promise. -/
def LessonPacer.onTimerResolved (s : State) : State :=
  { s with pendingTimerId := none }

/-! ## Lesson sequencer (`InstructionEngine`, `src/app.js` lines 1707-2176) -/

/-- The method `_clearInitWatchdog`. -/
def InstructionEngine._clearInitWatchdog (s : State) : State :=
  match s.initWatchdogId with
  | some id => { clearTimeout (some id) s with initWatchdogId := none }
  | none => s

/-- The method `_showInitError`: writes to the page only. -/
def InstructionEngine._showInitError (s : State) : State :=
  emit .showInitError s

/-- The method `_resetInitUi`: writes to the page only. -/
def InstructionEngine._resetInitUi (s : State) : State :=
  emit .resetInitUi s

/-- The method `_setLessonStatus(status, meta)`; `force` is `meta.force`. -/
def InstructionEngine._setLessonStatus (status : LessonStatus) (force : Bool) (s : State) : State :=
  let prev := s.lessonStatus
  let s1 := if prev ≠ status ∨ force = true then
      emit (.lessonStatus prev status) { s with lessonStatus := status }
    else s
  let s2 := if status = .ready ∨ status = .error then
      InstructionEngine._clearInitWatchdog s1
    else s1
  if status = .error then InstructionEngine._showInitError s2 else s2

/-- The method `stop`. -/
def InstructionEngine.stop (s : State) : State :=
  let s1 := { s with isAnimationRunning := false, currentRunId := s.currentRunId + 1 }
  let s2 := clearTimeout s1.animationTimeout s1
  let s3 := InstructionEngine._clearInitWatchdog s2
  let s4 := { s3 with hasStartedOnce := false }
  let s5 := AudioService.stop s4
  let s6 := LessonPacer.cancel s5
  if s6.lessonStatus ≠ .idle then InstructionEngine._setLessonStatus .idle false s6 else s6

/-- The function `navigateTo(screenId)`, seen from the sequencer: it stops the
instruction animations; the rest of it changes screens. -/
def navigateTo (screenId : String) (s : State) : State :=
  InstructionEngine.stop (emit (.navigateTo screenId) s)

/-- The sequencer stopped `n` more times in a row. -/
def stopTimes : Nat → State → State
  | 0, s => s
  | n + 1, s => stopTimes n (InstructionEngine.stop s)

/-- The method `GameEngine.startLevel(levelId, skipIntro)` as `finish` calls it,
with `skipIntro = true`, seen from the sequencer: it stops the sequencer on
entry, never starts a lesson, and stops the sequencer once more for each
`navigateTo` it goes through (`env.gameNavigations` of them, none when the
level id is unknown). -/
def GameEngine.startLevel (env : Env) (levelId : String) (skipIntro : Bool) (s : State) : State :=
  stopTimes env.gameNavigations (InstructionEngine.stop (emit (.gameStartLevel levelId skipIntro) s))

/-- The method `finish`. With no current level, reading `this.currentLevel.id`
throws after the status was set. -/
def InstructionEngine.finish (env : Env) (s : State) : State :=
  let s1 := InstructionEngine._setLessonStatus .idle true s
  match s1.currentLevel with
  | none => s1
  | some level => GameEngine.startLevel env level.id true s1

/-- The values that `playNextLetter` captures for its `isStale` closure. -/
structure Snapshot where
  currentIdx : Nat
  runId : Nat
  initToken : Nat
deriving DecidableEq, Repr

/-- The closure `isStale` of `playNextLetter`, evaluated on the live state. -/
def isStale (snap : Snapshot) (s : State) : Bool :=
  !s.isAnimationRunning ||
  s.currentLetterIdx != snap.currentIdx ||
  s.currentRunId != snap.runId ||
  s.lessonInitToken != snap.initToken

/-- What the asynchronous rest of `playNextLetter` holds in its closure. -/
structure Continuation where
  snapshot : Snapshot
  char : String
  pres : Presentation
  total : Nat
  lessonId : String
deriving DecidableEq, Repr

/-- The method `playNextLetter` up to the capture of `isStale` (lines 1926 to
2055): the new state, and the continuation when the animation was started.
A symbol that is not a string makes the resolution throw; the promise is
rejected and the state is left as it was. -/
def InstructionEngine.playNextLetter (env : Env) (s : State) : State × Option Continuation :=
  match s.currentLevel with
  | none => (InstructionEngine._setLessonStatus .error false s, none)
  | some level =>
    match level.letters with
    | none => (InstructionEngine._setLessonStatus .error false s, none)
    | some letters =>
      if letters.length ≤ s.currentLetterIdx then (InstructionEngine.finish env s, none)
      else
        match letters.getD s.currentLetterIdx none with
        | none => (s, none)
        | some char =>
          match resolvePresentation (some char) with
          | none => (s, none)
          | some pres =>
            if !env.hasCellContainer || !env.hasMainCell ||
                (pres.isMultiCell && !env.hasPrefixCell) then
              (InstructionEngine._setLessonStatus .error false s, none)
            else
              let s1 := if s.lessonStatus = .loading then
                  InstructionEngine._setLessonStatus .ready false s
                else s
              let s2 := if !s1.hasStartedOnce then
                  emit (.lessonStarted level.id s1.currentLetterIdx) { s1 with hasStartedOnce := true }
                else s1
              let s3 := emit (.lessonStep level.id s2.currentLetterIdx) s2
              let s4 := { s3 with isAnimationRunning := true }
              (s4, some { snapshot := { currentIdx := s4.currentLetterIdx
                                        runId := s4.currentRunId
                                        initToken := s4.lessonInitToken }
                          char := char
                          pres := pres
                          total := letters.length
                          lessonId := level.id })

/-- The method `_startInitWatchdog(initToken)`. -/
def InstructionEngine._startInitWatchdog (initToken : Nat) (s : State) : State :=
  let s1 := InstructionEngine._clearInitWatchdog s
  let r := setTimeout (.initWatchdog initToken) s1
  { r.2 with initWatchdogId := some r.1 }

/-- The options object of `startLesson`, with its defaults. -/
structure StartOptions where
  reason : String := "auto"
  force : Bool := false
  keepRetry : Bool := false
deriving DecidableEq, Repr

/-- The guard of `startLesson` under which the call is skipped as idempotent. -/
def InstructionEngine.isIdempotentStart (level : Lesson) (options : StartOptions) (s : State) : Bool :=
  !options.force &&
  (s.lessonStatus == .loading || s.lessonStatus == .ready) &&
  (match s.currentLevel with
   | some current => current.id == level.id
   | none => false)

/-- Lines 1741 to 1767 of `startLesson`, run when the call is neither rejected
nor skipped: the retry counter is reset unless `keepRetry`, a token is minted,
the sequencer is stopped (directly or by the navigation to the instruction
screen), the level is installed at index 0 with status `loading`. -/
def InstructionEngine.startLesson_reset (env : Env) (level : Lesson) (options : StartOptions)
    (s : State) : State :=
  let s1 := emit (.lessonInit level.id options.reason) s
  let s2 := if !options.keepRetry then { s1 with lessonInitRetryCount := 0 } else s1
  let s3 := { s2 with lessonInitToken := s2.lessonInitToken + 1 }
  let s4 := if env.onInstructionScreen then InstructionEngine.stop s3
    else navigateTo "instruction-screen" s3
  let s5 := { s4 with currentLevel := some level, currentLetterIdx := 0, hasStartedOnce := false }
  let s6 := InstructionEngine._setLessonStatus .loading false s5
  InstructionEngine._resetInitUi s6

/-- The method `startLesson(level, options)`; `none` is a missing level. The
block under `try` throws when the progress container is absent from the page or
when `letters` is not an array. The constant `initToken` is the token minted by
this call. -/
def InstructionEngine.startLesson (env : Env) (level : Option Lesson) (options : StartOptions)
    (s : State) : State :=
  match level with
  | none => InstructionEngine._setLessonStatus .error false s
  | some level =>
    if InstructionEngine.isIdempotentStart level options s then
      emit (.lessonInitSkipped level.id options.reason) s
    else
      let initToken := s.lessonInitToken + 1
      let s7 := InstructionEngine.startLesson_reset env level options s
      if !env.hasProgressDots || level.letters.isNone then
        InstructionEngine._setLessonStatus .error false (emit .lessonInitError s7)
      else
        let s8 := InstructionEngine._startInitWatchdog initToken s7
        (InstructionEngine.playNextLetter env s8).1

/-- The method `start(level, options)`; `reason` is `options.reason`, replaced
by the text "auto" when it is absent or empty. -/
def InstructionEngine.start (env : Env) (level : Option Lesson) (reason : Option String)
    (s : State) : State :=
  let r := match reason with
    | some text => if text = "" then "auto" else text
    | none => "auto"
  InstructionEngine.startLesson env level { reason := r } s

/-- The method `next`. -/
def InstructionEngine.next (env : Env) (s : State) : State :=
  let s1 := clearTimeout s.animationTimeout s
  let s2 := { s1 with isAnimationRunning := false }
  let s3 := { s2 with currentLetterIdx := s2.currentLetterIdx + 1 }
  (InstructionEngine.playNextLetter env s3).1

/-- The method `repeat`. -/
def InstructionEngine.repeat (env : Env) (s : State) : State :=
  let s1 := clearTimeout s.animationTimeout s
  match s1.currentLevel with
  | none => InstructionEngine._setLessonStatus .error false s1
  | some level => InstructionEngine.startLesson env (some level) { reason := "repeat", force := true } s1

/-- The method `skip`. -/
def InstructionEngine.skip (env : Env) (s : State) : State :=
  let s1 := clearTimeout s.animationTimeout s
  let s2 := { s1 with isAnimationRunning := false }
  InstructionEngine.finish env s2

/-- The callback that `_startInitWatchdog(initToken)` hands to `setTimeout`. -/
def InstructionEngine.onInitWatchdog (env : Env) (initToken : Nat) (s : State) : State :=
  if s.lessonInitToken ≠ initToken then s
  else if s.lessonStatus ≠ .loading then s
  else
    match s.currentLevel with
    | some level =>
      if s.lessonInitRetryCount < 1 then
        let s1 := { s with lessonInitRetryCount := s.lessonInitRetryCount + 1 }
        let s2 := emit (.lessonInitRetry level.id s1.lessonInitRetryCount) s1
        InstructionEngine.startLesson env (some level)
          { reason := "watchdog-retry", force := true, keepRetry := true } s2
      else InstructionEngine._setLessonStatus .error false s
    | none => InstructionEngine._setLessonStatus .error false s

/-- The callback of the auto-advance timer armed at the end of `playNextLetter`.
With no current level the comparison throws; with `letters` not an array it is
a comparison with `NaN`, which is false. -/
def InstructionEngine.onAutoAdvance (env : Env) (s : State) : State :=
  match s.currentLevel with
  | none => s
  | some level =>
    match level.letters with
    | none => s
    | some letters =>
      if s.currentLetterIdx + 1 < letters.length then InstructionEngine.next env s else s

/-- The last statement of `playNextLetter`, which arms the auto-advance timer;
it is reached only through the stale check that precedes it. -/
def InstructionEngine.armAutoAdvance (snap : Snapshot) (s : State) : State :=
  if isStale snap s then s
  else
    let r := setTimeout .autoAdvance s
    { r.2 with animationTimeout := some r.1 }

/-- A pending browser timer fires: it leaves the timer table and its callback runs. -/
def fireTimer (env : Env) (id : Nat) (s : State) : State :=
  match s.timers.lookup id with
  | none => s
  | some cb =>
    let s1 := { s with timers := s.timers.filter (fun t => t.1 != id) }
    match cb with
    | .initWatchdog initToken => InstructionEngine.onInitWatchdog env initToken s1
    | .autoAdvance => InstructionEngine.onAutoAdvance env s1
    | .pacerResolve => LessonPacer.onTimerResolved s1

/-! ## Operations on the sequencer, as a transition system -/

/-- Everything that can change the state between two suspension points: the
public operations, a navigation, a timer that fires, and the steps by which a
continuation of `playNextLetter` or of `pace` touches the shared state. -/
inductive Op
  | start (env : Env) (level : Option Lesson) (reason : Option String)
  | startLesson (env : Env) (level : Option Lesson) (options : StartOptions)
  | stop
  | next (env : Env)
  | repeat (env : Env)
  | skip (env : Env)
  | navigateTo (screenId : String)
  | timerFires (env : Env) (id : Nat)
  | continuationEnds (snap : Snapshot)
  | paceBegin (shouldSpeak : Bool)
  | paceAfterSpeech (elapsedBelowEstimate : Bool)
  | pacerCancel
  | audioStop
deriving DecidableEq, Repr

/-- One transition. -/
def Op.apply : Op → State → State
  | .start env level reason, s => InstructionEngine.start env level reason s
  | .startLesson env level options, s => InstructionEngine.startLesson env level options s
  | .stop, s => InstructionEngine.stop s
  | .next env, s => InstructionEngine.next env s
  | .repeat env, s => InstructionEngine.repeat env s
  | .skip env, s => InstructionEngine.skip env s
  | .navigateTo screenId, s => BrailleQuest.navigateTo screenId s
  | .timerFires env id, s => fireTimer env id s
  | .continuationEnds snap, s => InstructionEngine.armAutoAdvance snap s
  | .paceBegin shouldSpeak, s => LessonPacer.paceBegin shouldSpeak s
  | .paceAfterSpeech b, s => LessonPacer.paceAfterSpeech b s
  | .pacerCancel, s => LessonPacer.cancel s
  | .audioStop, s => AudioService.stop s

/-- A sequence of transitions, in order. -/
def run (ops : List Op) (s : State) : State :=
  ops.foldl (fun st op => op.apply st) s

/-- States the application can be in: reached from the initial object by transitions. -/
def Reachable (s : State) : Prop :=
  ∃ ops : List Op, run ops InstructionEngine.init = s

/-! ## Duration estimate and pacing (`LessonPacer`) -/

/-- The characters that the class `\s` of a JavaScript regular expression matches. -/
def isWhiteSpace (c : Char) : Bool :=
  let n := c.toNat
  decide (n = 9 ∨ n = 10 ∨ n = 11 ∨ n = 12 ∨ n = 13 ∨ n = 32 ∨ n = 160 ∨ n = 5760 ∨
    (8192 ≤ n ∧ n ≤ 8202) ∨ n = 8232 ∨ n = 8233 ∨ n = 8239 ∨ n = 8287 ∨ n = 12288 ∨
    n = 65279)

/-- Number of maximal runs of white space in a text; `inRun` tells that the
character before was white space. -/
def whiteSpaceRuns (inRun : Bool) : List Char → Nat
  | [] => 0
  | c :: rest =>
    if isWhiteSpace c then (if inRun then 0 else 1) + whiteSpaceRuns true rest
    else whiteSpaceRuns false rest

/-- The value `text.split(/\s+/).length`: one piece more than there are
separators, empty pieces at both ends included. -/
def splitLength (text : String) : Nat :=
  whiteSpaceRuns false text.data + 1

/-- The value `(text.match(/,/g) || []).length`. -/
def commaCount (text : String) : Nat :=
  text.data.countP (fun c => c == ',')

/-- The value `(text.match(/[.!?]/g) || []).length`. -/
def periodCount (text : String) : Nat :=
  text.data.countP (fun c => c == '.' || c == '!' || c == '?')

/-- The method `estimateSpeechDuration(text)`, with `state.settings.audioSpeed`
as a parameter. -/
def LessonPacer.estimateSpeechDuration (audioSpeed : ℚ) (text : String) : ℚ :=
  let wordsPerMin : ℚ := 150 / audioSpeed
  let words : ℚ := (splitLength text : ℚ)
  let baseDuration : ℚ := (words / wordsPerMin) * 60 * 1000
  let commas : ℚ := (commaCount text : ℚ) * 150
  let periods : ℚ := (periodCount text : ℚ) * 300
  max (baseDuration + commas + periods) 400

/-- What `pace` awaits. -/
inductive Wait
  | speakAndWait (text : String)
  | timer (delay : ℚ)
deriving DecidableEq, Repr

/-- The method `pace(text)` as the list of what it awaits, in order.
`shouldSpeak` is `SpeechController.shouldSpeakForLesson()` and `elapsed` is the
difference of the two readings of `Date.now()` around `speakAndWait`. -/
def LessonPacer.pace (shouldSpeak : Bool) (audioSpeed : ℚ) (text : String) (elapsed : ℚ) : List Wait :=
  let estimatedDuration := LessonPacer.estimateSpeechDuration audioSpeed text
  if shouldSpeak then
    if elapsed < estimatedDuration then
      [.speakAndWait text, .timer (estimatedDuration - elapsed)]
    else [.speakAndWait text]
  else [.timer estimatedDuration]

/-- Time an awaited item takes when the narration engine completes after
`speechTime` and a timer resolves after its delay. -/
def Wait.duration (speechTime : ℚ) : Wait → ℚ
  | .speakAndWait _ => speechTime
  | .timer delay => delay

/-- Time after which a sequence of awaits has completed. -/
def completionTime (speechTime : ℚ) (waits : List Wait) : ℚ :=
  (waits.map (Wait.duration speechTime)).sum

/-- Whether the narration engine is invoked. -/
def invokesEngine (waits : List Wait) : Bool :=
  waits.any (fun w => match w with
    | .speakAndWait _ => true
    | .timer _ => false)

/-! ## The asynchronous rest of `playNextLetter` (lines 2057-2141) -/

/-- The two cells of the instruction screen. -/
inductive Cell
  | prefixCell
  | mainCell
deriving DecidableEq, Repr

/-- The effects of the animation, in the order of the source. -/
inductive Action
  | showPuppyMessage (text : String)
  | speakAndWait (text : String) (phase : String)
  | wait (key : TimingKey)
  | dotAnimating (cell : Cell) (dotNum : Nat)
  | hapticTap
  | dotFilled (cell : Cell) (dotNum : Nat)
  | setInstructionText (text : String)
  | setNextButton (text : String)
  | armAutoAdvance
deriving DecidableEq, Repr

/-- One statement of the animation: an effect, the statement
`if (isStale()) return;`, or the iteration over an `undefined` pattern. -/
inductive Instr
  | act (a : Action)
  | staleCheck
  | throwTypeError
deriving DecidableEq, Repr

/-- The elements of the page that the animation looks up. -/
structure Page where
  prefixDotEl : Nat → Bool
  mainDotEl : Nat → Bool
  hasInstructionText : Bool
  hasNextBtn : Bool

/-- The local function `getIntroPhrase(char, idx, total)`. -/
def getIntroPhrase (char : String) (idx total : Nat) : String :=
  if idx = 0 then "Comencemos con la " ++ char
  else if idx + 1 = total then "Y por último, la " ++ char
  else
    match (idx - 1) % 4 with
    | 0 => "Ahora, la " ++ char
    | 1 => "Siguiente: " ++ char
    | 2 => "Vamos con la " ++ char
    | _ => "Continuamos con la " ++ char

/-- The text of a dot list as `getDotsDescription` builds it. -/
def dotsText (dots : Dots) : String :=
  match dots with
  | [] => "puntos  y undefined"
  | [d] => "punto " ++ toString d
  | _ => "puntos " ++ ", ".intercalate (dots.dropLast.map toString) ++ " y " ++
      toString (dots.getLastD 0)

/-- The function `getDotsDescription(char)` of `braille-data.js`. -/
def getDotsDescription (char : String) : String :=
  let r : String × Option Dots :=
    if testUpperAZ char then
      ("Signo de mayúscula (puntos 4 y 6) seguido de ", BRAILLE_ALPHABET.get (toLowerCase char))
    else if testDigit char then
      ("Signo de número (puntos 3, 4, 5 y 6) seguido de ", BRAILLE_NUMBERS.get char)
    else if (BRAILLE_ACCENTS.get char).isSome then ("", BRAILLE_ACCENTS.get char)
    else if (BRAILLE_SYMBOLS.get char).isSome then ("", BRAILLE_SYMBOLS.get char)
    else if (BRAILLE_MATH.get char).isSome then ("", BRAILLE_MATH.get char)
    else if (BRAILLE_DIGITAL.get char).isSome then ("", BRAILLE_DIGITAL.get char)
    else ("", BRAILLE_ALPHABET.get (toLowerCase char))
  match r.2 with
  | none => "desconocido"
  | some dots => r.1 ++ dotsText dots

/-- The loop over `prefixDots`. -/
def prefixDotSteps (page : Page) (dotNum : Nat) : List Instr :=
  [.staleCheck] ++
  (if page.prefixDotEl dotNum then
    [.act (.dotAnimating .prefixCell dotNum), .act .hapticTap, .act (.wait .PREFIX_DOT),
     .staleCheck, .act (.dotFilled .prefixCell dotNum)]
   else [])

/-- The narration of one main dot. -/
def mainDotPhrase (dotNum : Nat) : String :=
  "Punto " ++ toString dotNum ++ ", " ++ DOT_POSITIONS dotNum

/-- The loop over `mainDots`. -/
def mainDotSteps (page : Page) (dotNum : Nat) : List Instr :=
  [.staleCheck] ++
  (if page.mainDotEl dotNum then
    [.act (.dotAnimating .mainCell dotNum), .act (.speakAndWait (mainDotPhrase dotNum) "main_dot"),
     .staleCheck, .act .hapticTap, .act (.wait .MAIN_DOT), .staleCheck,
     .act (.dotFilled .mainCell dotNum)]
   else []) ++
  [.act (.wait .DOT_GAP), .staleCheck]

/-- The narration of the prefix cell. -/
def prefixPhrase (prefixLabel : String) : String :=
  if prefixLabel = "Mayúscula" then "Signo de mayúscula" else "Signo de número"

/-- The summary phrase of a symbol. -/
def summaryPhrase (char : String) : String :=
  char ++ " es " ++ getDotsDescription char

/-- The statements of `playNextLetter` after the capture of `isStale`, for the
continuation `k`, in source order. The live index and lesson read at the end
are those of the snapshot, since the stale check before them passed. -/
def continuationProgram (page : Page) (k : Continuation) : List Instr :=
  let introPhrase := getIntroPhrase k.char k.snapshot.currentIdx k.total
  let buddyMsg := summaryPhrase k.char
  [.act (.showPuppyMessage introPhrase), .act (.speakAndWait introPhrase "intro"), .staleCheck,
   .act (.wait .INTRO_PAUSE), .staleCheck] ++
  (match k.pres.isMultiCell, k.pres.prefixDots with
   | true, some prefixDots =>
     [.act (.speakAndWait (prefixPhrase k.pres.prefixLabel) "prefix_label"), .staleCheck] ++
     prefixDots.flatMap (prefixDotSteps page) ++
     [.act (.wait .INTER_CELL), .staleCheck]
   | _, _ => []) ++
  [.staleCheck, .act (.speakAndWait ("Letra " ++ k.pres.mainLabel) "main_label"), .staleCheck] ++
  (match k.pres.mainDots with
   | none => [.throwTypeError]
   | some mainDots =>
     mainDots.flatMap (mainDotSteps page) ++
     [.staleCheck] ++
     (if page.hasInstructionText then [.act (.setInstructionText buddyMsg)] else []) ++
     [.act (.showPuppyMessage buddyMsg), .act (.speakAndWait buddyMsg "desc"), .staleCheck] ++
     (if page.hasNextBtn then
       [.act (.setNextButton (if k.snapshot.currentIdx + 1 = k.total then "INICIAR LECCIÓN"
          else "SIGUIENTE"))]
      else []) ++
     [.act .armAutoAdvance])

/-- Execution of the animation: `stale n` is the value of the `n`-th evaluation
of `isStale()`; the effects performed, in order. -/
def execute (stale : Nat → Bool) : Nat → List Instr → List Action
  | _, [] => []
  | n, .act a :: rest => a :: execute stale n rest
  | n, .staleCheck :: rest => if stale n then [] else execute stale (n + 1) rest
  | _, .throwTypeError :: _ => []

/-- The actions of `playNextLetter` for a symbol rendered without interruption:
every stale check passes. -/
def renderUninterrupted (page : Page) (k : Continuation) : List Action :=
  execute (fun _ => false) 0 (continuationProgram page k)

/-- The lesson of the happy-path scenario: the symbols a and b. -/
def lessonAB : Lesson := { id := "L1", letters := some [some "a", some "b"] }
/-- A page with every element of the instruction screen, shown on that screen;
the game goes through one navigation when the lesson finishes. -/
def envOk : Env := ⟨true, true, true, true, true, 1⟩

/-! ## Observations and invariants used by the properties -/

/-- The records of the trace that count lesson starts, retries and hand-overs
to the game: `lesson_init`, `lesson_init_retry` and `GameEngine.startLevel`. -/
def Event.isLifecycle : Event → Bool
  | .lessonInit _ _ => true
  | .lessonInitRetry _ _ => true
  | .gameStartLevel _ _ => true
  | _ => false

/-- The lifecycle records of a state, oldest first. -/
def lifecycle (s : State) : List Event :=
  s.trace.filter Event.isLifecycle

/-- The operations that interrupt a running animation: `stop`, `next`,
`repeat`, `skip`, and `startLesson` on a lesson when the call is not skipped
as idempotent. -/
def Op.interrupts (s : State) : Op → Bool
  | .stop => true
  | .next _ => true
  | .repeat _ => true
  | .skip _ => true
  | .startLesson _ (some level) options => !InstructionEngine.isIdempotentStart level options s
  | _ => false

/-- The relation between a state and a later one under which a snapshot that
is stale stays stale: the run id does not decrease, and either the token grew,
or the token is the same, the index did not decrease, and the animation flag
is raised only where it was raised already or the index grew. -/
def Advances (s t : State) : Prop :=
  s.currentRunId ≤ t.currentRunId ∧
  (s.lessonInitToken < t.lessonInitToken ∨
   (s.lessonInitToken = t.lessonInitToken ∧ s.currentLetterIdx ≤ t.currentLetterIdx ∧
    (t.isAnimationRunning = true →
      s.isAnimationRunning = true ∨ s.currentLetterIdx < t.currentLetterIdx)))

/-- A snapshot that the state has moved past for good: a later token, or the
same token with a later run id, a later index, or the animation flag down. -/
def Superseded (snap : Snapshot) (s : State) : Prop :=
  snap.runId ≤ s.currentRunId ∧
  (snap.initToken < s.lessonInitToken ∨
   (snap.initToken = s.lessonInitToken ∧ snap.currentIdx ≤ s.currentLetterIdx ∧
    (snap.runId < s.currentRunId ∨ snap.currentIdx < s.currentLetterIdx ∨
      s.isAnimationRunning = false)))

/-- Every pending timer carries an id that `setTimeout` has already handed out. -/
def TimersFresh (s : State) : Prop :=
  ∀ t ∈ s.timers, t.1 < s.nextTimerId

/-- The later state holds no timer that the earlier one did not hold, and has
handed out no new id. -/
def TimersWithin (s t : State) : Prop :=
  (∀ x ∈ t.timers, x ∈ s.timers) ∧ t.nextTimerId = s.nextTimerId

/-- The armed watchdog fires: the timer that `initWatchdogId` points to. -/
def fireInitWatchdog (env : Env) (s : State) : State :=
  match s.initWatchdogId with
  | some id => fireTimer env id s
  | none => s

/-- The state in which the watchdog callback re-invokes `startLesson`: the fired
timer has left the table, the retry is counted and recorded. -/
def retryState (level : Lesson) (id : Nat) (s : State) : State :=
  emit (.lessonInitRetry level.id (s.lessonInitRetryCount + 1))
    { s with timers := s.timers.filter (fun t => t.1 != id),
             lessonInitRetryCount := s.lessonInitRetryCount + 1 }

/-! ## Concrete lessons and states -/

/-- A lesson whose only symbol is `null`: its first step throws. -/
def lessonStalled : Lesson := { id := "L0", letters := some [none] }

/-- A page on which every dot element and every control is present. -/
def pageOk : Page := ⟨fun _ => true, fun _ => true, true, true⟩

/-- The state in which `startLesson` calls `playNextLetter` when the lesson
a, b is started from the initial state. -/
def beforeFirstStep : State :=
  InstructionEngine._startInitWatchdog 1
    (InstructionEngine.startLesson_reset envOk lessonAB {} InstructionEngine.init)

/-- The lesson a, b started from the initial state: the first step is running. -/
def startedAB : State :=
  InstructionEngine.startLesson envOk (some lessonAB) {} InstructionEngine.init

/-- The continuation of the first step of the lesson a, b. -/
def continuationA : Continuation :=
  { snapshot := ⟨0, 1, 1⟩
    char := "a"
    pres := ⟨false, none, some [1], "", "a"⟩
    total := 2
    lessonId := "L1" }

/-- The changes of `lessonStatus` recorded in the trace, oldest first, each as
the pair of the status before and the status after. -/
def statusLog (s : State) : List (LessonStatus × LessonStatus) :=
  s.trace.filterMap (fun e => match e with
    | .lessonStatus prev next => some (prev, next)
    | _ => none)

/-- A lesson without letters, like the level `0-1` of the curriculum. -/
def lessonEmpty : Lesson := { id := "0-1", letters := some [] }

/-- Whether the timer `id` is pending in the browser. -/
def isPending (id : Nat) (s : State) : Bool :=
  s.timers.any (fun t => t.1 == id)

/-- The timer table once the timer of a handle is cleared. -/
def dropTimer (id : Option Nat) (timers : List (Nat × TimerCallback)) :
    List (Nat × TimerCallback) :=
  match id with
  | none => timers
  | some i => timers.filter (fun t => t.1 != i)

/-! ## Per-step ceiling (`_safeSpeakAndWait`, `src/app.js` lines 1878-1903) -/

/-- How a promise settles, in time counted from the call that made it. -/
inductive Settlement
  | fulfilled (after : ℚ)
  | rejected (after : ℚ)
  | never
deriving DecidableEq, Repr

/-- The branch that `_safeSpeakAndWait` takes after `Promise.race`. -/
inductive RaceResult
  | paced
  | timeout
  | error
deriving DecidableEq, Repr

/-- The race `Promise.race([LessonPacer.pace(text), timeoutPromise])`: the branch
taken and the time at which it is taken. The timer of `timeoutPromise` is armed
before `pace` is called, so it fires first when both are due together. -/
def InstructionEngine._safeSpeakAndWait_race (pace : Settlement) : RaceResult × ℚ :=
  let ceiling : ℚ := (TIMING .AUDIO_STEP_TIMEOUT : ℚ)
  match pace with
  | .fulfilled d => if d < ceiling then (.paced, d) else (.timeout, ceiling)
  | .rejected d => if d < ceiling then (.error, d) else (.timeout, ceiling)
  | .never => (.timeout, ceiling)

/-- What `_safeSpeakAndWait` does to the shared state in each branch: on the
result `timeout` and in the `catch` block it stops narration and cancels the
pacing timer. -/
def InstructionEngine._safeSpeakAndWait_settle (branch : RaceResult) (s : State) : State :=
  match branch with
  | .paced => s
  | .timeout => LessonPacer.cancel (AudioService.stop s)
  | .error => LessonPacer.cancel (AudioService.stop s)

/-- The method `_safeSpeakAndWait(text)`, given how `LessonPacer.pace(text)`
settles and the shared state at that moment: how its own promise settles, and
the state it leaves. The timer of the ceiling is held in a local variable and
cleared in the `finally` block, so it is not kept in the timer table. -/
def InstructionEngine._safeSpeakAndWait (pace : Settlement) (s : State) : Settlement × State :=
  let r := InstructionEngine._safeSpeakAndWait_race pace
  (.fulfilled r.2, InstructionEngine._safeSpeakAndWait_settle r.1 s)

/-! ## Helper functions of `braille-data.js` (lines 1260-1331) -/

/-- The call `array.every((x, i) => p(x, i))`, from index `i` on. -/
def everyFrom (p : Nat → Nat → Bool) : Nat → List Nat → Bool
  | _, [] => true
  | i, x :: xs => p x i && everyFrom p (i + 1) xs

/-- The call `[...dots].sort((a, b) => a - b)`. -/
def sortAscending (dots : List Nat) : List Nat :=
  dots.insertionSort (fun a b => a ≤ b)

/-- The function `dotsMatch(userDots, correctDots)`. -/
def dotsMatch (userDots correctDots : List Nat) : Bool :=
  if userDots.length ≠ correctDots.length then false
  else
    let sortedUser := sortAscending userDots
    let sortedCorrect := sortAscending correctDots
    everyFrom (fun dot i => sortedCorrect[i]? == some dot) 0 sortedUser

/-- The function `resolveDots(char)`; `none` is `null` or `undefined`. The
tables are read by their own keys: a symbol is a single character, so it is
never a name that objects inherit, such as `constructor`. -/
def resolveDots (char : Sym) : Option Dots :=
  match char with
  | none => none
  | some ch =>
    if ch = "" then none
    else if testUpperAZ ch then BRAILLE_ALPHABET.get (toLowerCase ch)
    else if testDigit ch then BRAILLE_NUMBERS.get ch
    else if (BRAILLE_ACCENTS.get ch).isSome then BRAILLE_ACCENTS.get ch
    else if (BRAILLE_MATH.get ch).isSome then BRAILLE_MATH.get ch
    else if (BRAILLE_DIGITAL.get ch).isSome then BRAILLE_DIGITAL.get ch
    else
      match BRAILLE_SYMBOLS.get ch with
      | some dots => some dots
      | none => BRAILLE_ALPHABET.get (toLowerCase ch)

/-- The default candidates of `generateDistractors`: the keys of
`BRAILLE_ALPHABET` then those of `BRAILLE_ACCENTS`. -/
def allLetters : List String :=
  BRAILLE_ALPHABET.map (fun e => e.1) ++ BRAILLE_ACCENTS.map (fun e => e.1)

/-- The table `confusionPairs` of `generateDistractors`. -/
def confusionPairs : List (String × List String) :=
  [("i", ["j", "e"]), ("j", ["i", "g"]), ("e", ["i", "a"]), ("n", ["ñ", "m"]),
   ("ñ", ["n", "g"]), ("a", ["á", "e"]), ("á", ["a", "é"]), ("é", ["e", "í"]),
   ("í", ["i", "ó"]), ("ó", ["o", "ú"]), ("ú", ["u", "ó"])]

/-- A candidate with its similarity score. -/
structure Scored where
  letter : String
  similarity : Int
deriving DecidableEq, Repr

/-- The test of `filter(Boolean)` on a candidate: `null`, `undefined` and the
empty string are dropped. -/
def isTruthy (l : Sym) : Bool :=
  match l with
  | some text => text != ""
  | none => false

/-- The callback of `map` in `generateDistractors`: the score of a candidate,
`none` (that is `null`) when it has no dot pattern. -/
def scoreLetter (correctLetter : String) (correct : Dots) (letter : String) : Option Scored :=
  match resolveDots (some letter) with
  | none => none
  | some dots =>
    let shared : Int := ((dots.filter (fun d => correct.contains d)).length : Int)
    let totalDiff : Int := (((dots.length : Int) - (correct.length : Int)).natAbs : Int)
    let confusionBonus : Int :=
      match confusionPairs.lookup correctLetter with
      | some pairs => if pairs.contains letter then 3 else 0
      | none => 0
    some { letter := letter, similarity := shared - totalDiff + confusionBonus }

/-- The call `array.slice(0, count)`: a negative `count` is counted from the end. -/
def sliceTo {α : Type} (count : Int) (l : List α) : List α :=
  if 0 ≤ count then l.take count.toNat else l.take (l.length - count.natAbs)

/-- The call `sort((a, b) => b.similarity - a.similarity)`: by decreasing
similarity, candidates of equal similarity keeping their order. -/
def sortBySimilarity (scored : List Scored) : List Scored :=
  scored.insertionSort (fun a b => b.similarity ≤ a.similarity)

/-- The candidates that `generateDistractors` scores: the available letters, or
all letters when none are given, without the falsy entries. -/
def candidateLetters (availableLetters : Option (List Sym)) : List String :=
  ((availableLetters.getD (allLetters.map some)).filter isTruthy).filterMap id

/-- The function `generateDistractors(correctLetter, count, availableLetters)`;
`availableLetters = none` is the default `null`. -/
def generateDistractors (correctLetter : Sym) (count : Int)
    (availableLetters : Option (List Sym)) : List String :=
  match correctLetter, resolveDots correctLetter with
  | some correctText, some correct =>
    let letters := candidateLetters availableLetters
    let scored := sortBySimilarity
      ((letters.filter (fun l => l != correctText)).filterMap
        (scoreLetter correctText correct))
    (sliceTo count scored).map (fun sc => sc.letter)
  | _, _ => []

/-! ## State migration (`migrateProgress`, `src/app.js` lines 28-58) -/

/-- The values found in a stored progress object: what `JSON.parse` gives,
with integers for numbers and arrays of level ids, and `undefined` and `NaN`,
which only JavaScript code can put there. -/
inductive JsVal
  | undefined
  | null
  | bool (b : Bool)
  | num (n : Int)
  | nan
  | str (text : String)
  | arr (items : List String)
deriving DecidableEq, Repr

/-- An object as its own properties: `none` for a key the object does not have. -/
abbrev Obj := String → Option JsVal

/-- The object literal with the given properties, the first entry of a key winning. -/
def Obj.ofList (entries : List (String × JsVal)) : Obj :=
  fun key => entries.lookup key

/-- The property read `obj.key`. -/
def Obj.read (o : Obj) (key : String) : JsVal :=
  (o key).getD .undefined

/-- The assignment `obj.key = value`. -/
def Obj.set (o : Obj) (key : String) (value : JsVal) : Obj :=
  fun k => if k = key then some value else o k

/-- The statement `delete obj.key`. -/
def Obj.delete (o : Obj) (key : String) : Obj :=
  fun k => if k = key then none else o k

/-- The test `Object.prototype.hasOwnProperty.call(obj, key)`. -/
def Obj.hasOwnProperty (o : Obj) (key : String) : Bool :=
  (o key).isSome

/-- The object literal `{ ...a, ...b }`. -/
def Obj.spread (a b : Obj) : Obj :=
  fun k => match b k with
    | some v => some v
    | none => a k

/-- Truthiness of a value. -/
def JsVal.truthy : JsVal → Bool
  | .undefined => false
  | .null => false
  | .bool b => b
  | .num n => n != 0
  | .nan => false
  | .str text => text != ""
  | .arr _ => true

/-- The conversion of a value to a string. -/
def JsVal.toStr : JsVal → String
  | .undefined => "undefined"
  | .null => "null"
  | .bool b => if b then "true" else "false"
  | .num n => toString n
  | .nan => "NaN"
  | .str text => text
  | .arr items => ",".intercalate items

/-- The conversion of a primitive value to a number; `none` is `NaN`. -/
def JsVal.toNum : JsVal → Option Int
  | .undefined => none
  | .null => some 0
  | .bool b => some (if b then 1 else 0)
  | .num n => some n
  | .nan => none
  | .str _ => none
  | .arr _ => none

/-- Whether the operator `+` concatenates: an operand is a string, or an array,
whose primitive value is a string. -/
def JsVal.isStringLike : JsVal → Bool
  | .str _ => true
  | .arr _ => true
  | _ => false

/-- The operator `a + b`. -/
def jsAdd (a b : JsVal) : JsVal :=
  if a.isStringLike || b.isStringLike then .str (a.toStr ++ b.toStr)
  else
    match a.toNum, b.toNum with
    | some x, some y => .num (x + y)
    | _, _ => .nan

/-- The expression `value || 0`. -/
def orZero (value : JsVal) : JsVal :=
  if value.truthy then value else .num 0

/-- The call `Array.from(new Set(items))`: first occurrences, in order. -/
def uniqueInOrder : List String → List String
  | [] => []
  | x :: xs => x :: (uniqueInOrder xs).filter (fun y => y != x)

/-- The variables of `migrateProgress`: its two arguments, which no statement
assigns to, the copy it builds and returns, and the flag. Arrays are never
changed in place, so sharing them between the objects is not visible. -/
structure MigrationStore where
  parsedProgress : Obj
  defaultProgress : Obj
  mergedProgress : Obj
  migrated : Bool

/-- The block of `migrateProgress` that merges `completedLevels`. -/
def migrateProgress_levels (st : MigrationStore) : MigrationStore :=
  match st.parsedProgress.read "completedLevels" with
  | .arr completedLevels =>
    let currentLevels := match st.mergedProgress.read "levelsCompleted" with
      | .arr levels => levels
      | _ => []
    let mergedLevels := uniqueInOrder (currentLevels ++ completedLevels)
    let st1 := if mergedLevels.length ≠ currentLevels.length then
        { st with mergedProgress := st.mergedProgress.set "levelsCompleted" (.arr mergedLevels) }
      else st
    { st1 with migrated := true }
  | _ => st

/-- The block of `migrateProgress` that folds `xp` into `totalXP`. -/
def migrateProgress_xp (st : MigrationStore) : MigrationStore :=
  match st.parsedProgress.read "xp" with
  | .num xp =>
    { st with
      mergedProgress := st.mergedProgress.set "totalXP"
        (jsAdd (orZero (st.mergedProgress.read "totalXP")) (.num xp))
      migrated := true }
  | _ => st

/-- One of the two blocks of `migrateProgress` that delete a legacy key. -/
def migrateProgress_delete (key : String) (st : MigrationStore) : MigrationStore :=
  if st.mergedProgress.hasOwnProperty key then
    { st with mergedProgress := st.mergedProgress.delete key, migrated := true }
  else st

/-- The body of `migrateProgress(parsedProgress, defaultProgress)`: the
variables when it returns. A missing or `null` argument is the empty object. -/
def migrateProgress_run (parsedProgress defaultProgress : Obj) : MigrationStore :=
  let st0 : MigrationStore :=
    { parsedProgress := parsedProgress
      defaultProgress := defaultProgress
      mergedProgress := Obj.spread defaultProgress parsedProgress
      migrated := false }
  migrateProgress_delete "completedLevels"
    (migrateProgress_delete "xp" (migrateProgress_xp (migrateProgress_levels st0)))

/-- The function `migrateProgress`: the pair `{ progress, migrated }`. -/
def migrateProgress (parsedProgress defaultProgress : Obj) : Obj × Bool :=
  let st := migrateProgress_run parsedProgress defaultProgress
  (st.mergedProgress, st.migrated)

/-- The digits paired with the letters whose patterns they reuse: 1 to 9 with
a to i, and 0 with j. -/
def digitLetters : List (String × String) :=
  [("1", "a"), ("2", "b"), ("3", "c"), ("4", "d"), ("5", "e"), ("6", "f"), ("7", "g"),
   ("8", "h"), ("9", "i"), ("0", "j")]

/-- The letter tables together: `BRAILLE_ALPHABET` then `BRAILLE_ACCENTS`. -/
def letterTable : Table := BRAILLE_ALPHABET ++ BRAILLE_ACCENTS

/-- The fixed hold durations of the animation. -/
def holdKeys : List TimingKey :=
  [.INTRO_PAUSE, .PREFIX_DOT, .INTER_CELL, .MAIN_DOT, .DOT_GAP]

/-- The stored progress of the second test of `state-migration.test.js`. -/
def currentProgress : Obj :=
  Obj.ofList [("totalXP", .num 20), ("levelsCompleted", .arr ["2-1"])]

/-- The default progress of the second test of `state-migration.test.js`. -/
def defaultProgressOfSecondTest : Obj :=
  Obj.ofList [("totalXP", .num 5), ("levelsCompleted", .arr [])]

/-- A stored progress whose current list names the level 1-1 twice, and whose
legacy list names the level 1-2. -/
def repeatedLevelProgress : Obj :=
  Obj.ofList [("levelsCompleted", .arr ["1-1", "1-1"]), ("completedLevels", .arr ["1-2"])]

/-- The default progress of the application: nothing completed. -/
def emptyDefaultProgress : Obj :=
  Obj.ofList [("totalXP", .num 0), ("levelsCompleted", .arr [])]

/-- The number of whitespace-delimited words of a text, in the words of the
specification: the maximal runs of characters that are not white space;
`inWord` tells that the character before was not white space. -/
def wordRuns (inWord : Bool) : List Char → Nat
  | [] => 0
  | c :: rest =>
    if isWhiteSpace c then wordRuns false rest
    else (if inWord then 0 else 1) + wordRuns true rest

/-- The number of whitespace-delimited words of a text. -/
def wordCount (text : String) : Nat :=
  wordRuns false text.data

/-- Whether the last character is white space; `prev` is the answer for the
characters read so far. -/
def endsInWhiteSpace (prev : Bool) : List Char → Bool
  | [] => prev
  | c :: rest => endsInWhiteSpace (isWhiteSpace c) rest

/-- The text is empty or starts with white space: `split` then yields an empty
first piece. -/
def hasEmptyFirstPiece (text : String) : Bool :=
  match text.data with
  | [] => true
  | c :: _ => isWhiteSpace c

/-- The text ends with white space: `split` then yields an empty last piece. -/
def hasEmptyLastPiece (text : String) : Bool :=
  endsInWhiteSpace false text.data

/-- The duration formula of the specification for a word count `W`, a speed
multiplier and the punctuation of a text, in milliseconds. -/
def durationFormula (W : Nat) (speed : ℚ) (text : String) : ℚ :=
  max ((W : ℚ) * 60000 * speed / 150 + 150 * (commaCount text : ℚ) +
    300 * (periodCount text : ℚ)) 400

/-- The similarity score that `generateDistractors` gives a candidate that has
the dot pattern `dots`: shared dots, minus the difference in dot count, plus 3
for a known confusion pair. -/
def similarityScore (correctLetter : String) (correct dots : Dots) (letter : String) : Int :=
  ((dots.filter (fun d => correct.contains d)).length : Int) -
    (((dots.length : Int) - (correct.length : Int)).natAbs : Int) +
    (match confusionPairs.lookup correctLetter with
     | some pairs => if pairs.contains letter then 3 else 0
     | none => 0)

/-- The score of a candidate letter, 0 when it has no dot pattern. -/
def similarityOf (correctLetter : String) (correct : Dots) (letter : String) : Int :=
  match resolveDots (some letter) with
  | some dots => similarityScore correctLetter correct dots letter
  | none => 0

/-- Whether a timer callback is that of the lesson-start watchdog. -/
def TimerCallback.isWatchdog : TimerCallback → Bool
  | .initWatchdog _ => true
  | _ => false

/-- Some watchdog timer is outstanding. -/
def watchdogPending (s : State) : Bool :=
  s.timers.any (fun t => t.2.isWatchdog)

/-- Some auto-advance timer is outstanding. -/
def autoAdvancePending (s : State) : Bool :=
  s.timers.any (fun t => t.2 == .autoAdvance)

/-- Some pacing timer is outstanding. -/
def pacingPending (s : State) : Bool :=
  s.timers.any (fun t => t.2 == .pacerResolve)

/-- Every watchdog timer of the table is the one that the handle `h` points to. -/
def HeldBy (h : Option Nat) (timers : List (Nat × TimerCallback)) : Prop :=
  ∀ t ∈ timers, t.2.isWatchdog = true → h = some t.1

/-- No watchdog timer is outstanding and the watchdog handle is `null`. -/
def WatchdogQuiet (s : State) : Prop :=
  watchdogPending s = false ∧ s.initWatchdogId = none

/-- The invariant of the watchdog: an outstanding watchdog timer is the one
that `initWatchdogId` points to, and the handle is set only while a lesson is
loading. -/
def WatchdogInv (s : State) : Prop :=
  HeldBy s.initWatchdogId s.timers ∧
  (s.initWatchdogId.isSome = true → s.lessonStatus = .loading ∧ s.currentLevel.isSome = true)

/-- A page from which the cell container has been removed. -/
def envNoContainer : Env := ⟨true, true, false, true, true, 1⟩

/-- The lesson a, b once the animation of its first symbol has ended: the
auto-advance timer is armed. -/
def awaitingAdvance : State :=
  run [.startLesson envOk (some lessonAB) {}, .continuationEnds continuationA.snapshot]
    InstructionEngine.init

/-- The lesson a, b while the intro phrase of its first symbol is paced in
silent mode: the pacing timer is armed. -/
def pacingIntro : State :=
  run [.startLesson envOk (some lessonAB) {}, .paceBegin false] InstructionEngine.init

/-- The level 11-2 of the curriculum, which teaches three accented vowels. -/
def lessonAccents : Lesson := { id := "11-2", letters := some [some "á", some "é", some "í"] }

/-- The continuation of the first step of the level 11-2, as `playNextLetter`
captures it. -/
def continuationAccent : Continuation :=
  { snapshot := ⟨0, 1, 1⟩
    char := "á"
    pres := ⟨false, none, none, "", "á"⟩
    total := 3
    lessonId := "11-2" }

/-- The main-cell pattern that `playNextLetter` resolves for a symbol; the
outer `none` is a thrown resolution, the inner one `undefined`. -/
def sequencerMainDots (char : Sym) : Option (Option Dots) :=
  (resolvePresentation char).map (fun p => p.mainDots)

/-- The keys of the tables that the sequencer reads. -/
def sequencerKeys : List String :=
  (BRAILLE_ALPHABET ++ BRAILLE_NUMBERS ++ BRAILLE_SYMBOLS).map (fun e => e.1)

/-- The keys of the tables that only `resolveDots` reads. -/
def resolveOnlyKeys : List String :=
  (BRAILLE_ACCENTS ++ BRAILLE_MATH ++ BRAILLE_DIGITAL).map (fun e => e.1)

/-! ## Properties -/

/-! ### Symbol presentation -/

/-- A character in the range A to Z is one of the 26 ASCII capitals. -/
theorem upper_cases (c : Char) (h : 65 ≤ c.toNat ∧ c.toNat ≤ 90) :
    c ∈ "ABCDEFGHIJKLMNOPQRSTUVWXYZ".data := by
  have hc : Char.ofNat c.toNat = c := Char.ofNat_toNat c
  obtain ⟨n, hn⟩ : ∃ n, c.toNat = n := ⟨_, rfl⟩
  rw [hn] at h hc
  obtain ⟨h1, h2⟩ := h
  subst hc
  interval_cases n <;> decide

/-- A character in the range 0 to 9 is one of the ten ASCII digits. -/
theorem digit_cases (c : Char) (h : 48 ≤ c.toNat ∧ c.toNat ≤ 57) :
    c ∈ "0123456789".data := by
  have hc : Char.ofNat c.toNat = c := Char.ofNat_toNat c
  obtain ⟨n, hn⟩ : ∃ n, c.toNat = n := ⟨_, rfl⟩
  rw [hn] at h hc
  obtain ⟨h1, h2⟩ := h
  subst hc
  interval_cases n <;> decide

/-- C9, on the code: the capital Ñ has a lower-case form with a pattern in
`BRAILLE_ALPHABET`, yet the sequencer resolves it to a single cell without the
capital sign, because the test `/[A-Z]/` does not match it. -/
theorem capital_enye_resolves_single_cell :
    toLowerCase "Ñ" = "ñ" ∧
    BRAILLE_ALPHABET.get (toLowerCase "Ñ") = some [1, 2, 4, 5, 6] ∧
    resolvePresentation (symOfChar 'Ñ') =
      some { isMultiCell := false, prefixDots := none, mainDots := some [1, 2, 4, 5, 6],
             prefixLabel := "", mainLabel := "Ñ" } := by
  decide

/-- C9, amended: a capital A to Z resolves to two cells, the capital sign [4, 6]
then the pattern of its lower-case letter; a digit resolves to two cells, the
number sign [3, 4, 5, 6] then the pattern of the digit; every other character,
Ñ included, resolves to a single cell with no prefix cell. -/
theorem symbol_presentation_resolved (c : Char) :
    ((65 ≤ c.toNat ∧ c.toNat ≤ 90) →
      (BRAILLE_ALPHABET.get (String.mk [lowerChar c])).isSome = true ∧
        resolvePresentation (symOfChar c) =
          some { isMultiCell := true, prefixDots := some [4, 6],
                 mainDots := BRAILLE_ALPHABET.get (String.mk [lowerChar c]),
                 prefixLabel := "Mayúscula", mainLabel := String.mk [lowerChar c] }) ∧
    ((48 ≤ c.toNat ∧ c.toNat ≤ 57) →
      (BRAILLE_NUMBERS.get (String.mk [c])).isSome = true ∧
        resolvePresentation (symOfChar c) =
          some { isMultiCell := true, prefixDots := some [3, 4, 5, 6],
                 mainDots := BRAILLE_NUMBERS.get (String.mk [c]),
                 prefixLabel := "Número", mainLabel := String.mk [c] }) ∧
    (¬ (65 ≤ c.toNat ∧ c.toNat ≤ 90) → ¬ (48 ≤ c.toNat ∧ c.toNat ≤ 57) →
      ∃ p, resolvePresentation (symOfChar c) = some p ∧
        p.isMultiCell = false ∧ p.prefixDots = none) := by
  refine ⟨fun h => ?_, fun h => ?_, fun h1 h2 => ?_⟩
  · have hc := upper_cases c h
    clear h
    revert c
    decide
  · have hc := digit_cases c h
    clear h
    revert c
    decide
  · have e1 : testUpperAZ (String.mk [c]) = false := by
      simp only [testUpperAZ, List.any_cons, List.any_nil, Bool.or_false]
      exact decide_eq_false h1
    have e2 : testDigit (String.mk [c]) = false := by
      simp only [testDigit, List.any_cons, List.any_nil, Bool.or_false]
      exact decide_eq_false h2
    simp only [resolvePresentation, symOfChar, e1, e2, Bool.false_eq_true, if_false]
    split_ifs <;> exact ⟨_, rfl, rfl, rfl⟩

/-- C9, amended, at concrete symbols: the capital A, the digit 7 and the capital Ñ. -/
theorem symbol_presentation_resolved_witness :
    ((BRAILLE_ALPHABET.get (String.mk [lowerChar 'A'])).isSome = true ∧
        resolvePresentation (symOfChar 'A') =
          some { isMultiCell := true, prefixDots := some [4, 6],
                 mainDots := BRAILLE_ALPHABET.get (String.mk [lowerChar 'A']),
                 prefixLabel := "Mayúscula", mainLabel := String.mk [lowerChar 'A'] }) ∧
    ((BRAILLE_NUMBERS.get (String.mk ['7'])).isSome = true ∧
        resolvePresentation (symOfChar '7') =
          some { isMultiCell := true, prefixDots := some [3, 4, 5, 6],
                 mainDots := BRAILLE_NUMBERS.get (String.mk ['7']),
                 prefixLabel := "Número", mainLabel := String.mk ['7'] }) ∧
    (∃ p, resolvePresentation (symOfChar 'Ñ') = some p ∧
        p.isMultiCell = false ∧ p.prefixDots = none) :=
  ⟨(symbol_presentation_resolved 'A').1 (by decide),
   (symbol_presentation_resolved '7').2.1 (by decide),
   (symbol_presentation_resolved 'Ñ').2.2 (by decide) (by decide)⟩

/-! ### Step pacer -/

/-- C6: the estimated duration is at least 400 ms, for every text (empty or made
of white space or punctuation only as well) and every playback speed, the
positive ones in particular. -/
theorem estimateSpeechDuration_floor (audioSpeed : ℚ) (text : String) :
    400 ≤ LessonPacer.estimateSpeechDuration audioSpeed text := by
  unfold LessonPacer.estimateSpeechDuration
  exact le_max_right _ _

/-- C4: with narration enabled and the engine done after `t`, `pace` completes
after `max t E`, where `E` is the estimate; with narration disabled the engine
is not invoked and `pace` completes after exactly `E`. -/
theorem pace_completion (audioSpeed : ℚ) (text : String) (t : ℚ) :
    completionTime t (LessonPacer.pace true audioSpeed text t) =
      max t (LessonPacer.estimateSpeechDuration audioSpeed text) ∧
    completionTime t (LessonPacer.pace false audioSpeed text t) =
      LessonPacer.estimateSpeechDuration audioSpeed text ∧
    invokesEngine (LessonPacer.pace false audioSpeed text t) = false := by
  refine ⟨?_, ?_, ?_⟩
  · simp only [LessonPacer.pace, if_true]
    split_ifs with h
    · simp [completionTime, Wait.duration, max_eq_right (le_of_lt h)]
    · simp [completionTime, Wait.duration, max_eq_left (not_lt.mp h)]
  · simp [LessonPacer.pace, completionTime, Wait.duration]
  · simp [LessonPacer.pace, invokesEngine]

/-! ### Frame lemmas of the sequencer operations -/

@[simp] theorem emit_fields (e : Event) (s : State) :
    (emit e s).currentLevel = s.currentLevel ∧
    (emit e s).currentLetterIdx = s.currentLetterIdx ∧
    (emit e s).isAnimationRunning = s.isAnimationRunning ∧
    (emit e s).currentRunId = s.currentRunId ∧
    (emit e s).lessonStatus = s.lessonStatus ∧
    (emit e s).lessonInitToken = s.lessonInitToken ∧
    (emit e s).lessonInitRetryCount = s.lessonInitRetryCount ∧
    (emit e s).initWatchdogId = s.initWatchdogId ∧
    (emit e s).hasStartedOnce = s.hasStartedOnce ∧
    (emit e s).animationTimeout = s.animationTimeout ∧
    (emit e s).pendingTimerId = s.pendingTimerId ∧
    (emit e s).timers = s.timers ∧
    (emit e s).nextTimerId = s.nextTimerId ∧
    (emit e s).trace = s.trace ++ [e] := by
  simp [emit]

@[simp] theorem clearTimeout_fields (id : Option Nat) (s : State) :
    (clearTimeout id s).currentLevel = s.currentLevel ∧
    (clearTimeout id s).currentLetterIdx = s.currentLetterIdx ∧
    (clearTimeout id s).isAnimationRunning = s.isAnimationRunning ∧
    (clearTimeout id s).currentRunId = s.currentRunId ∧
    (clearTimeout id s).lessonStatus = s.lessonStatus ∧
    (clearTimeout id s).lessonInitToken = s.lessonInitToken ∧
    (clearTimeout id s).lessonInitRetryCount = s.lessonInitRetryCount ∧
    (clearTimeout id s).initWatchdogId = s.initWatchdogId ∧
    (clearTimeout id s).hasStartedOnce = s.hasStartedOnce ∧
    (clearTimeout id s).animationTimeout = s.animationTimeout ∧
    (clearTimeout id s).pendingTimerId = s.pendingTimerId ∧
    (clearTimeout id s).nextTimerId = s.nextTimerId ∧
    (clearTimeout id s).trace = s.trace := by
  cases id <;> simp [clearTimeout]

@[simp] theorem clearInitWatchdog_fields (s : State) :
    (InstructionEngine._clearInitWatchdog s).currentLevel = s.currentLevel ∧
    (InstructionEngine._clearInitWatchdog s).currentLetterIdx = s.currentLetterIdx ∧
    (InstructionEngine._clearInitWatchdog s).isAnimationRunning = s.isAnimationRunning ∧
    (InstructionEngine._clearInitWatchdog s).currentRunId = s.currentRunId ∧
    (InstructionEngine._clearInitWatchdog s).lessonStatus = s.lessonStatus ∧
    (InstructionEngine._clearInitWatchdog s).lessonInitToken = s.lessonInitToken ∧
    (InstructionEngine._clearInitWatchdog s).lessonInitRetryCount = s.lessonInitRetryCount ∧
    (InstructionEngine._clearInitWatchdog s).initWatchdogId = none ∧
    (InstructionEngine._clearInitWatchdog s).hasStartedOnce = s.hasStartedOnce ∧
    (InstructionEngine._clearInitWatchdog s).animationTimeout = s.animationTimeout ∧
    (InstructionEngine._clearInitWatchdog s).pendingTimerId = s.pendingTimerId ∧
    (InstructionEngine._clearInitWatchdog s).nextTimerId = s.nextTimerId ∧
    (InstructionEngine._clearInitWatchdog s).trace = s.trace := by
  unfold InstructionEngine._clearInitWatchdog
  split <;> simp [*]

@[simp] theorem cancel_fields (s : State) :
    (LessonPacer.cancel s).currentLevel = s.currentLevel ∧
    (LessonPacer.cancel s).currentLetterIdx = s.currentLetterIdx ∧
    (LessonPacer.cancel s).isAnimationRunning = s.isAnimationRunning ∧
    (LessonPacer.cancel s).currentRunId = s.currentRunId ∧
    (LessonPacer.cancel s).lessonStatus = s.lessonStatus ∧
    (LessonPacer.cancel s).lessonInitToken = s.lessonInitToken ∧
    (LessonPacer.cancel s).lessonInitRetryCount = s.lessonInitRetryCount ∧
    (LessonPacer.cancel s).initWatchdogId = s.initWatchdogId ∧
    (LessonPacer.cancel s).hasStartedOnce = s.hasStartedOnce ∧
    (LessonPacer.cancel s).animationTimeout = s.animationTimeout ∧
    (LessonPacer.cancel s).pendingTimerId = none ∧
    (LessonPacer.cancel s).nextTimerId = s.nextTimerId ∧
    (LessonPacer.cancel s).trace = s.trace := by
  unfold LessonPacer.cancel
  split <;> simp [*]

@[simp] theorem setLessonStatus_fields (st : LessonStatus) (f : Bool) (s : State) :
    (InstructionEngine._setLessonStatus st f s).currentLevel = s.currentLevel ∧
    (InstructionEngine._setLessonStatus st f s).currentLetterIdx = s.currentLetterIdx ∧
    (InstructionEngine._setLessonStatus st f s).isAnimationRunning = s.isAnimationRunning ∧
    (InstructionEngine._setLessonStatus st f s).currentRunId = s.currentRunId ∧
    (InstructionEngine._setLessonStatus st f s).lessonStatus = st ∧
    (InstructionEngine._setLessonStatus st f s).lessonInitToken = s.lessonInitToken ∧
    (InstructionEngine._setLessonStatus st f s).lessonInitRetryCount = s.lessonInitRetryCount ∧
    (InstructionEngine._setLessonStatus st f s).hasStartedOnce = s.hasStartedOnce ∧
    (InstructionEngine._setLessonStatus st f s).animationTimeout = s.animationTimeout ∧
    (InstructionEngine._setLessonStatus st f s).pendingTimerId = s.pendingTimerId ∧
    (InstructionEngine._setLessonStatus st f s).nextTimerId = s.nextTimerId := by
  unfold InstructionEngine._setLessonStatus InstructionEngine._showInitError
  dsimp only
  split_ifs <;> simp_all

@[simp] theorem lifecycle_emit (e : Event) (s : State) :
    (emit e s).trace.filter Event.isLifecycle =
      s.trace.filter Event.isLifecycle ++ (if e.isLifecycle then [e] else []) := by
  simp [emit, List.filter_cons]

@[simp] theorem lifecycle_setLessonStatus (st : LessonStatus) (f : Bool) (s : State) :
    (InstructionEngine._setLessonStatus st f s).trace.filter Event.isLifecycle =
      s.trace.filter Event.isLifecycle ∧
    (InstructionEngine._setLessonStatus st f s).initWatchdogId =
      (if st = .ready ∨ st = .error then none else s.initWatchdogId) := by
  unfold InstructionEngine._setLessonStatus InstructionEngine._showInitError
  dsimp only
  split_ifs <;> simp_all [Event.isLifecycle]

@[simp] theorem stop_fields (s : State) :
    (InstructionEngine.stop s).currentLevel = s.currentLevel ∧
    (InstructionEngine.stop s).currentLetterIdx = s.currentLetterIdx ∧
    (InstructionEngine.stop s).isAnimationRunning = false ∧
    (InstructionEngine.stop s).currentRunId = s.currentRunId + 1 ∧
    (InstructionEngine.stop s).lessonStatus = .idle ∧
    (InstructionEngine.stop s).lessonInitToken = s.lessonInitToken ∧
    (InstructionEngine.stop s).lessonInitRetryCount = s.lessonInitRetryCount ∧
    (InstructionEngine.stop s).initWatchdogId = none ∧
    (InstructionEngine.stop s).hasStartedOnce = false ∧
    (InstructionEngine.stop s).animationTimeout = s.animationTimeout ∧
    (InstructionEngine.stop s).pendingTimerId = none ∧
    (InstructionEngine.stop s).nextTimerId = s.nextTimerId ∧
    (InstructionEngine.stop s).trace.filter Event.isLifecycle =
      s.trace.filter Event.isLifecycle := by
  unfold InstructionEngine.stop AudioService.stop
  dsimp only
  split_ifs with h <;> simp_all [Event.isLifecycle]

@[simp] theorem stopTimes_fields (n : Nat) (s : State) :
    (stopTimes n s).currentLevel = s.currentLevel ∧
    (stopTimes n s).currentLetterIdx = s.currentLetterIdx ∧
    (stopTimes n s).currentRunId = s.currentRunId + n ∧
    (stopTimes n s).lessonInitToken = s.lessonInitToken ∧
    (stopTimes n s).lessonInitRetryCount = s.lessonInitRetryCount ∧
    (stopTimes n s).nextTimerId = s.nextTimerId ∧
    (stopTimes n s).trace.filter Event.isLifecycle = s.trace.filter Event.isLifecycle := by
  induction n generalizing s with
  | zero => simp [stopTimes]
  | succ n ih => simp [stopTimes, ih]; omega

/-- Stopping again keeps a stopped sequencer stopped. -/
theorem stopTimes_stopped (n : Nat) (s : State)
    (h1 : s.isAnimationRunning = false) (h2 : s.lessonStatus = .idle)
    (h3 : s.initWatchdogId = none) :
    (stopTimes n s).isAnimationRunning = false ∧ (stopTimes n s).lessonStatus = .idle ∧
    (stopTimes n s).initWatchdogId = none := by
  induction n generalizing s with
  | zero => simp [stopTimes, h1, h2, h3]
  | succ n ih => simp [stopTimes]; exact ih _ (by simp) (by simp) (by simp)

@[simp] theorem startLevel_fields (env : Env) (id : String) (b : Bool) (s : State) :
    (GameEngine.startLevel env id b s).currentLevel = s.currentLevel ∧
    (GameEngine.startLevel env id b s).currentLetterIdx = s.currentLetterIdx ∧
    (GameEngine.startLevel env id b s).isAnimationRunning = false ∧
    (GameEngine.startLevel env id b s).currentRunId = s.currentRunId + 1 + env.gameNavigations ∧
    (GameEngine.startLevel env id b s).lessonStatus = .idle ∧
    (GameEngine.startLevel env id b s).lessonInitToken = s.lessonInitToken ∧
    (GameEngine.startLevel env id b s).lessonInitRetryCount = s.lessonInitRetryCount ∧
    (GameEngine.startLevel env id b s).initWatchdogId = none ∧
    (GameEngine.startLevel env id b s).nextTimerId = s.nextTimerId ∧
    (GameEngine.startLevel env id b s).trace.filter Event.isLifecycle =
      s.trace.filter Event.isLifecycle ++ [.gameStartLevel id b] := by
  unfold GameEngine.startLevel
  have h := stopTimes_stopped env.gameNavigations
    (InstructionEngine.stop (emit (.gameStartLevel id b) s)) (by simp) (by simp) (by simp)
  simp [h, Event.isLifecycle]

@[simp] theorem finish_fields (env : Env) (s : State) :
    (InstructionEngine.finish env s).currentLevel = s.currentLevel ∧
    (InstructionEngine.finish env s).currentLetterIdx = s.currentLetterIdx ∧
    (InstructionEngine.finish env s).lessonStatus = .idle ∧
    (InstructionEngine.finish env s).lessonInitToken = s.lessonInitToken ∧
    (InstructionEngine.finish env s).lessonInitRetryCount = s.lessonInitRetryCount ∧
    (InstructionEngine.finish env s).nextTimerId = s.nextTimerId := by
  unfold InstructionEngine.finish
  dsimp only
  split <;> simp_all

@[simp] theorem playNextLetter_frame (env : Env) (s : State) :
    (InstructionEngine.playNextLetter env s).1.currentLevel = s.currentLevel ∧
    (InstructionEngine.playNextLetter env s).1.currentLetterIdx = s.currentLetterIdx ∧
    (InstructionEngine.playNextLetter env s).1.lessonInitToken = s.lessonInitToken ∧
    (InstructionEngine.playNextLetter env s).1.lessonInitRetryCount = s.lessonInitRetryCount ∧
    (InstructionEngine.playNextLetter env s).1.nextTimerId = s.nextTimerId := by
  unfold InstructionEngine.playNextLetter
  split
  · simp
  · split
    · simp
    · split
      · simp
      · split
        · simp
        · split
          · simp
          · dsimp only
            split_ifs <;> simp

@[simp] theorem startInitWatchdog_fields (tok : Nat) (s : State) :
    (InstructionEngine._startInitWatchdog tok s).currentLevel = s.currentLevel ∧
    (InstructionEngine._startInitWatchdog tok s).currentLetterIdx = s.currentLetterIdx ∧
    (InstructionEngine._startInitWatchdog tok s).isAnimationRunning = s.isAnimationRunning ∧
    (InstructionEngine._startInitWatchdog tok s).currentRunId = s.currentRunId ∧
    (InstructionEngine._startInitWatchdog tok s).lessonStatus = s.lessonStatus ∧
    (InstructionEngine._startInitWatchdog tok s).lessonInitToken = s.lessonInitToken ∧
    (InstructionEngine._startInitWatchdog tok s).lessonInitRetryCount = s.lessonInitRetryCount ∧
    (InstructionEngine._startInitWatchdog tok s).initWatchdogId = some s.nextTimerId ∧
    (InstructionEngine._startInitWatchdog tok s).hasStartedOnce = s.hasStartedOnce ∧
    (InstructionEngine._startInitWatchdog tok s).animationTimeout = s.animationTimeout ∧
    (InstructionEngine._startInitWatchdog tok s).pendingTimerId = s.pendingTimerId ∧
    (InstructionEngine._startInitWatchdog tok s).nextTimerId = s.nextTimerId + 1 ∧
    (InstructionEngine._startInitWatchdog tok s).trace = s.trace := by
  simp [InstructionEngine._startInitWatchdog, setTimeout]

@[simp] theorem navigateTo_fields (screenId : String) (s : State) :
    (navigateTo screenId s).currentLevel = s.currentLevel ∧
    (navigateTo screenId s).currentLetterIdx = s.currentLetterIdx ∧
    (navigateTo screenId s).isAnimationRunning = false ∧
    (navigateTo screenId s).currentRunId = s.currentRunId + 1 ∧
    (navigateTo screenId s).lessonStatus = .idle ∧
    (navigateTo screenId s).lessonInitToken = s.lessonInitToken ∧
    (navigateTo screenId s).lessonInitRetryCount = s.lessonInitRetryCount ∧
    (navigateTo screenId s).initWatchdogId = none ∧
    (navigateTo screenId s).hasStartedOnce = false ∧
    (navigateTo screenId s).animationTimeout = s.animationTimeout ∧
    (navigateTo screenId s).pendingTimerId = none ∧
    (navigateTo screenId s).nextTimerId = s.nextTimerId ∧
    (navigateTo screenId s).trace.filter Event.isLifecycle =
      s.trace.filter Event.isLifecycle := by
  simp [navigateTo, Event.isLifecycle]

theorem finish_reports (env : Env) (s : State) (level : Lesson) (h : s.currentLevel = some level) :
    (InstructionEngine.finish env s).isAnimationRunning = false ∧
    (InstructionEngine.finish env s).initWatchdogId = none ∧
    (InstructionEngine.finish env s).currentRunId = s.currentRunId + 1 + env.gameNavigations ∧
    (InstructionEngine.finish env s).trace.filter Event.isLifecycle =
      s.trace.filter Event.isLifecycle ++ [.gameStartLevel level.id true] := by
  unfold InstructionEngine.finish
  simp [h]

theorem Superseded.stale {snap : Snapshot} {s : State} (h : Superseded snap s) :
    isStale snap s = true := by
  obtain ⟨h1, h2⟩ := h
  simp only [isStale, Bool.or_eq_true, Bool.not_eq_true', bne_iff_ne, ne_eq]
  rcases h2 with h2 | ⟨_, _, h2 | h2 | h2⟩
  · right; omega
  · left; right; omega
  · left; left; right; omega
  · left; left; left; exact h2

theorem Superseded.advance {snap : Snapshot} {s t : State} (h : Superseded snap s)
    (ha : Advances s t) : Superseded snap t := by
  obtain ⟨h1, h2⟩ := h
  obtain ⟨a1, a2⟩ := ha
  refine ⟨le_trans h1 a1, ?_⟩
  rcases a2 with a2 | ⟨a2, a3, a4⟩
  · left
    rcases h2 with h2 | ⟨h2, _⟩ <;> omega
  · rcases h2 with h2 | ⟨h2, h3, h4⟩
    · left; omega
    · right
      refine ⟨by omega, by omega, ?_⟩
      rcases h4 with h4 | h4 | h4
      · left; omega
      · right; left; omega
      · cases hr : t.isAnimationRunning
        · right; right; rfl
        · rcases a4 hr with a4 | a4
          · rw [h4] at a4; cases a4
          · right; left; omega

/-- Fields equal: nothing advanced. -/
theorem Advances.of_eq {s t : State} (h1 : t.currentRunId = s.currentRunId)
    (h2 : t.lessonInitToken = s.lessonInitToken) (h3 : t.currentLetterIdx = s.currentLetterIdx)
    (h4 : t.isAnimationRunning = s.isAnimationRunning) : Advances s t := by
  refine ⟨by omega, Or.inr ⟨by omega, by omega, fun h => Or.inl ?_⟩⟩
  rw [← h4]; exact h

/-- The earlier state may be replaced by one with the same four fields. -/
theorem Advances.of_left {s u t : State} (h : Advances u t)
    (h1 : u.currentRunId = s.currentRunId) (h2 : u.lessonInitToken = s.lessonInitToken)
    (h3 : u.currentLetterIdx = s.currentLetterIdx)
    (h4 : u.isAnimationRunning = s.isAnimationRunning) : Advances s t := by
  unfold Advances at *
  rw [h1, h2, h3, h4] at h
  exact h

theorem finish_advances (env : Env) (s : State) :
    s.currentRunId ≤ (InstructionEngine.finish env s).currentRunId ∧
    ((InstructionEngine.finish env s).isAnimationRunning = true → s.isAnimationRunning = true) := by
  unfold InstructionEngine.finish
  dsimp only
  split
  · simp
  · simp; omega

theorem playNextLetter_run (env : Env) (s : State) :
    s.currentRunId ≤ (InstructionEngine.playNextLetter env s).1.currentRunId := by
  unfold InstructionEngine.playNextLetter
  split
  · simp
  · split
    · simp
    · split
      · exact (finish_advances env s).1
      · split
        · simp
        · split
          · simp
          · split_ifs <;> simp <;> split_ifs <;> simp

theorem startLesson_none (env : Env) (options : StartOptions) (s : State) :
    InstructionEngine.startLesson env none options s =
      InstructionEngine._setLessonStatus .error false s := rfl

theorem startLesson_skipped (env : Env) (level : Lesson) (options : StartOptions) (s : State)
    (h : InstructionEngine.isIdempotentStart level options s = true) :
    InstructionEngine.startLesson env (some level) options s =
      emit (.lessonInitSkipped level.id options.reason) s := by
  simp [InstructionEngine.startLesson, h]

theorem startLesson_fields (env : Env) (level : Lesson) (options : StartOptions) (s : State)
    (h : InstructionEngine.isIdempotentStart level options s = false) :
    (InstructionEngine.startLesson env (some level) options s).lessonInitToken =
      s.lessonInitToken + 1 ∧
    (InstructionEngine.startLesson env (some level) options s).currentLevel = some level ∧
    (InstructionEngine.startLesson env (some level) options s).currentLetterIdx = 0 ∧
    (InstructionEngine.startLesson env (some level) options s).lessonInitRetryCount =
      (if options.keepRetry then s.lessonInitRetryCount else 0) ∧
    s.currentRunId ≤ (InstructionEngine.startLesson env (some level) options s).currentRunId := by
  unfold InstructionEngine.startLesson InstructionEngine.startLesson_reset
  simp only [h, Bool.false_eq_true, if_false]
  cases hk : options.keepRetry <;> cases ho : env.onInstructionScreen <;>
    simp only [Bool.not_false, Bool.not_true, Bool.false_eq_true, if_true, if_false] <;>
    split_ifs <;> simp [InstructionEngine._resetInitUi] <;>
    refine le_trans ?_ (playNextLetter_run _ _) <;> simp

theorem startLesson_advances (env : Env) (level : Option Lesson) (options : StartOptions)
    (s : State) : Advances s (InstructionEngine.startLesson env level options s) := by
  cases level with
  | none =>
    rw [startLesson_none]
    exact Advances.of_eq (by simp) (by simp) (by simp) (by simp)
  | some level =>
    cases h : InstructionEngine.isIdempotentStart level options s
    · have hf := startLesson_fields env level options s h
      exact ⟨hf.2.2.2.2, Or.inl (by omega)⟩
    · rw [startLesson_skipped env level options s h]
      exact Advances.of_eq (by simp) (by simp) (by simp) (by simp)

theorem next_advances (env : Env) (s : State) : Advances s (InstructionEngine.next env s) := by
  unfold InstructionEngine.next
  refine ⟨le_trans ?_ (playNextLetter_run _ _), Or.inr ⟨by simp, by simp, fun _ => Or.inr ?_⟩⟩
  · simp
  · simp

theorem stop_advances (s : State) : Advances s (InstructionEngine.stop s) := by
  refine ⟨by simp, Or.inr ⟨by simp, by simp, fun h => ?_⟩⟩
  simp at h

theorem skip_advances (env : Env) (s : State) : Advances s (InstructionEngine.skip env s) := by
  unfold InstructionEngine.skip
  have hf := finish_advances env
    { clearTimeout s.animationTimeout s with isAnimationRunning := false }
  refine ⟨le_trans (by simp) hf.1, Or.inr ⟨by simp, by simp, fun h => ?_⟩⟩
  have := hf.2 h
  simp at this

theorem repeat_advances (env : Env) (s : State) : Advances s (InstructionEngine.repeat env s) := by
  unfold InstructionEngine.repeat
  dsimp only
  split
  · exact Advances.of_eq (by simp) (by simp) (by simp) (by simp)
  · exact Advances.of_left (startLesson_advances env _ _ _) (by simp) (by simp) (by simp)
      (by simp)

theorem onInitWatchdog_advances (env : Env) (tok : Nat) (s : State) :
    Advances s (InstructionEngine.onInitWatchdog env tok s) := by
  unfold InstructionEngine.onInitWatchdog
  by_cases h1 : s.lessonInitToken ≠ tok
  · rw [if_pos h1]
    exact Advances.of_eq rfl rfl rfl rfl
  · rw [if_neg h1]
    by_cases h2 : s.lessonStatus ≠ .loading
    · rw [if_pos h2]
      exact Advances.of_eq rfl rfl rfl rfl
    · rw [if_neg h2]
      cases hl : s.currentLevel with
      | none => exact Advances.of_eq (by simp) (by simp) (by simp) (by simp)
      | some level =>
        by_cases h3 : s.lessonInitRetryCount < 1
        · simp only [h3, if_true]
          exact Advances.of_left (startLesson_advances env (some level) _ _) rfl rfl rfl rfl
        · simp only [h3, if_false]
          exact Advances.of_eq (by simp) (by simp) (by simp) (by simp)

theorem onAutoAdvance_advances (env : Env) (s : State) :
    Advances s (InstructionEngine.onAutoAdvance env s) := by
  unfold InstructionEngine.onAutoAdvance
  split
  · exact Advances.of_eq rfl rfl rfl rfl
  · split
    · exact Advances.of_eq rfl rfl rfl rfl
    · split_ifs
      · exact next_advances env s
      · exact Advances.of_eq rfl rfl rfl rfl

theorem fireTimer_advances (env : Env) (id : Nat) (s : State) :
    Advances s (fireTimer env id s) := by
  unfold fireTimer
  split
  · exact Advances.of_eq rfl rfl rfl rfl
  · dsimp only
    split
    · exact Advances.of_left (onInitWatchdog_advances env _ _) rfl rfl rfl rfl
    · exact Advances.of_left (onAutoAdvance_advances env _) rfl rfl rfl rfl
    · exact Advances.of_eq rfl rfl rfl rfl

theorem armAutoAdvance_advances (snap : Snapshot) (s : State) :
    Advances s (InstructionEngine.armAutoAdvance snap s) := by
  unfold InstructionEngine.armAutoAdvance
  split_ifs
  · exact Advances.of_eq rfl rfl rfl rfl
  · exact Advances.of_eq rfl rfl rfl rfl

theorem Op.apply_advances (op : Op) (s : State) : Advances s (op.apply s) := by
  cases op with
  | start env level reason => exact startLesson_advances env level _ s
  | startLesson env level options => exact startLesson_advances env level options s
  | stop => exact stop_advances s
  | next env => exact next_advances env s
  | «repeat» env => exact repeat_advances env s
  | skip env => exact skip_advances env s
  | navigateTo screenId =>
    exact Advances.of_left (stop_advances (emit (.navigateTo screenId) s)) rfl rfl rfl rfl
  | timerFires env id => exact fireTimer_advances env id s
  | continuationEnds snap => exact armAutoAdvance_advances snap s
  | paceBegin shouldSpeak =>
    cases shouldSpeak
    · exact Advances.of_eq rfl rfl rfl rfl
    · show Advances s (emit .audioStop s)
      exact Advances.of_eq (by simp) (by simp) (by simp) (by simp)
  | paceAfterSpeech b =>
    cases b
    · exact Advances.of_eq rfl rfl rfl rfl
    · exact Advances.of_eq rfl rfl rfl rfl
  | pacerCancel =>
    show Advances s (LessonPacer.cancel s)
    exact Advances.of_eq (by simp) (by simp) (by simp) (by simp)
  | audioStop =>
    show Advances s (emit .audioStop s)
    exact Advances.of_eq (by simp) (by simp) (by simp) (by simp)

theorem run_superseded (snap : Snapshot) (ops : List Op) (s : State) (h : Superseded snap s) :
    Superseded snap (run ops s) := by
  induction ops generalizing s with
  | nil => exact h
  | cons op ops ih => exact ih _ (h.advance (Op.apply_advances op s))

theorem playNextLetter_captured (env : Env) (s0 s : State) (k : Continuation)
    (h : InstructionEngine.playNextLetter env s0 = (s, some k)) :
    s.isAnimationRunning = true ∧ (∃ level, s.currentLevel = some level) ∧
    k.snapshot = ⟨s.currentLetterIdx, s.currentRunId, s.lessonInitToken⟩ := by
  unfold InstructionEngine.playNextLetter at h
  split at h
  · simp at h
  · split at h
    · simp at h
    · split at h
      · simp at h
      · split at h
        · simp at h
        · split at h
          · simp at h
          · split_ifs at h <;> simp at h <;> obtain ⟨h1, h2⟩ := h <;> subst h1 <;> subst h2 <;>
              simp [*] <;> split_ifs <;> simp [*]

/-! ### Timers and the stalled start -/

theorem TimersWithin.refl (s : State) : TimersWithin s s := ⟨fun _ h => h, rfl⟩

theorem TimersWithin.trans {s t u : State} (h1 : TimersWithin s t) (h2 : TimersWithin t u) :
    TimersWithin s u :=
  ⟨fun x hx => h1.1 x (h2.1 x hx), h2.2.trans h1.2⟩

theorem TimersWithin.fresh {s t : State} (h : TimersWithin s t) (hs : TimersFresh s) :
    TimersFresh t := by
  intro x hx
  rw [h.2]
  exact hs x (h.1 x hx)

theorem timersWithin_emit (e : Event) (s : State) : TimersWithin s (emit e s) :=
  ⟨fun _ h => by simpa using h, by simp⟩

theorem timersWithin_clearTimeout (id : Option Nat) (s : State) :
    TimersWithin s (clearTimeout id s) := by
  cases id with
  | none => exact TimersWithin.refl s
  | some i => exact ⟨fun x hx => List.mem_of_mem_filter hx, rfl⟩

theorem timersWithin_clearInitWatchdog (s : State) :
    TimersWithin s (InstructionEngine._clearInitWatchdog s) := by
  unfold InstructionEngine._clearInitWatchdog
  split
  · exact ⟨fun x hx => (timersWithin_clearTimeout _ s).1 x hx, rfl⟩
  · exact TimersWithin.refl s

theorem timersWithin_cancel (s : State) : TimersWithin s (LessonPacer.cancel s) := by
  unfold LessonPacer.cancel
  split
  · exact ⟨fun x hx => (timersWithin_clearTimeout _ s).1 x hx, rfl⟩
  · exact TimersWithin.refl s

theorem timersWithin_setLessonStatus (st : LessonStatus) (f : Bool) (s : State) :
    TimersWithin s (InstructionEngine._setLessonStatus st f s) := by
  unfold InstructionEngine._setLessonStatus InstructionEngine._showInitError
  dsimp only
  generalize hs1 : (if s.lessonStatus ≠ st ∨ f = true then
      emit (.lessonStatus s.lessonStatus st) { s with lessonStatus := st } else s) = s1
  have e1 : TimersWithin s s1 := by
    rw [← hs1]
    split_ifs
    · exact ⟨fun _ h => by simpa using h, by simp⟩
    · exact TimersWithin.refl s
  split_ifs
  · exact (e1.trans (timersWithin_clearInitWatchdog _)).trans (timersWithin_emit _ _)
  · exact e1.trans (timersWithin_emit _ _)
  · exact e1.trans (timersWithin_clearInitWatchdog _)
  · exact e1

theorem timersWithin_stop (s : State) : TimersWithin s (InstructionEngine.stop s) := by
  unfold InstructionEngine.stop AudioService.stop
  dsimp only
  generalize hs1 : LessonPacer.cancel (emit .audioStop
      { InstructionEngine._clearInitWatchdog (clearTimeout s.animationTimeout
          { s with isAnimationRunning := false, currentRunId := s.currentRunId + 1 }) with
        hasStartedOnce := false }) = s1
  have e1 : TimersWithin s s1 := by
    rw [← hs1]
    refine TimersWithin.trans ?_ (timersWithin_cancel _)
    refine TimersWithin.trans ?_ (timersWithin_emit _ _)
    have h1 := timersWithin_clearInitWatchdog (clearTimeout s.animationTimeout
          { s with isAnimationRunning := false, currentRunId := s.currentRunId + 1 })
    have h2 := timersWithin_clearTimeout s.animationTimeout
          { s with isAnimationRunning := false, currentRunId := s.currentRunId + 1 }
    exact ⟨fun x hx => h2.1 x (h1.1 x hx), h1.2.trans h2.2⟩
  split_ifs
  · exact e1.trans (timersWithin_setLessonStatus _ _ _)
  · exact e1

/-- A state in which the lesson is loading and from which the first step does
not reach `ready` is left as it is by `playNextLetter`: the step threw. -/
theorem playNextLetter_stalled (env : Env) (s : State) (h : s.lessonStatus = .loading)
    (h2 : (InstructionEngine.playNextLetter env s).1.lessonStatus = .loading) :
    (InstructionEngine.playNextLetter env s).1 = s := by
  unfold InstructionEngine.playNextLetter at h2 ⊢
  split at h2
  · simp at h2
  · split at h2
    · simp at h2
    · split at h2
      · simp at h2
      · split at h2
        · simp [*]
        · split at h2
          · simp [*]
          · exfalso
            revert h2
            simp only [h, if_true]
            split_ifs <;> simp

theorem lookup_append_fresh (l : List (Nat × TimerCallback)) (id : Nat) (cb : TimerCallback)
    (h : ∀ t ∈ l, t.1 < id) : (l ++ [(id, cb)]).lookup id = some cb := by
  induction l with
  | nil => simp [List.lookup]
  | cons x xs ih =>
    obtain ⟨a, b⟩ := x
    have ha : a < id := h (a, b) (List.mem_cons_self _ _)
    have hne : (id == a) = false := by simp; omega
    simp only [List.cons_append, List.lookup, hne]
    exact ih (fun t ht => h t (List.mem_cons_of_mem _ ht))

theorem timersWithin_startLesson_reset (env : Env) (level : Lesson) (options : StartOptions)
    (s : State) : TimersWithin s (InstructionEngine.startLesson_reset env level options s) := by
  unfold InstructionEngine.startLesson_reset InstructionEngine._resetInitUi
  dsimp only
  refine TimersWithin.trans ?_ (timersWithin_emit _ _)
  refine TimersWithin.trans ?_ (timersWithin_setLessonStatus _ _ _)
  generalize hs3 : ({ (if (!options.keepRetry) = true then
      { emit (.lessonInit level.id options.reason) s with lessonInitRetryCount := 0 }
      else emit (.lessonInit level.id options.reason) s) with
      lessonInitToken := (if (!options.keepRetry) = true then
        { emit (.lessonInit level.id options.reason) s with lessonInitRetryCount := 0 }
        else emit (.lessonInit level.id options.reason) s).lessonInitToken + 1 } : State) = s3
  have e3 : TimersWithin s s3 := by
    rw [← hs3]
    split_ifs <;> exact ⟨fun _ h => by simpa using h, by simp⟩
  have e4 : TimersWithin s (if env.onInstructionScreen = true then InstructionEngine.stop s3
      else navigateTo "instruction-screen" s3) := by
    split_ifs
    · exact e3.trans (timersWithin_stop _)
    · exact e3.trans ((timersWithin_emit _ _).trans (timersWithin_stop _))
  exact ⟨fun x hx => e4.1 x hx, e4.2⟩

theorem startLesson_reset_fields (env : Env) (level : Lesson) (options : StartOptions)
    (s : State) :
    (InstructionEngine.startLesson_reset env level options s).lessonStatus = .loading ∧
    (InstructionEngine.startLesson_reset env level options s).lessonInitToken =
      s.lessonInitToken + 1 ∧
    (InstructionEngine.startLesson_reset env level options s).currentLevel = some level ∧
    (InstructionEngine.startLesson_reset env level options s).lessonInitRetryCount =
      (if options.keepRetry then s.lessonInitRetryCount else 0) ∧
    (InstructionEngine.startLesson_reset env level options s).trace.filter Event.isLifecycle =
      s.trace.filter Event.isLifecycle ++ [.lessonInit level.id options.reason] := by
  unfold InstructionEngine.startLesson_reset InstructionEngine._resetInitUi
  cases hk : options.keepRetry <;> cases ho : env.onInstructionScreen <;>
    simp [Event.isLifecycle]

/-- A start that is not skipped and leaves the status at `loading` has armed the
watchdog with the token it minted, and the first step threw. -/
theorem startLesson_stalled (env : Env) (level : Lesson) (options : StartOptions) (s : State)
    (hfresh : TimersFresh s)
    (hstart : InstructionEngine.isIdempotentStart level options s = false)
    (hstall : (InstructionEngine.startLesson env (some level) options s).lessonStatus = .loading) :
    (InstructionEngine.startLesson env (some level) options s).initWatchdogId =
      some s.nextTimerId ∧
    (InstructionEngine.startLesson env (some level) options s).timers.lookup s.nextTimerId =
      some (.initWatchdog (s.lessonInitToken + 1)) ∧
    (InstructionEngine.startLesson env (some level) options s).nextTimerId = s.nextTimerId + 1 ∧
    TimersFresh (InstructionEngine.startLesson env (some level) options s) ∧
    (InstructionEngine.startLesson env (some level) options s).lessonInitToken =
      s.lessonInitToken + 1 ∧
    (InstructionEngine.startLesson env (some level) options s).currentLevel = some level ∧
    (InstructionEngine.startLesson env (some level) options s).lessonInitRetryCount =
      (if options.keepRetry then s.lessonInitRetryCount else 0) ∧
    (InstructionEngine.startLesson env (some level) options s).trace.filter Event.isLifecycle =
      s.trace.filter Event.isLifecycle ++ [.lessonInit level.id options.reason] := by
  have hw := timersWithin_startLesson_reset env level options s
  have hf := startLesson_reset_fields env level options s
  unfold InstructionEngine.startLesson at hstall ⊢
  simp only [hstart, Bool.false_eq_true, if_false] at hstall ⊢
  by_cases hx : (!env.hasProgressDots || level.letters.isNone) = true
  · rw [if_pos hx] at hstall
    simp at hstall
  · rw [if_neg hx] at hstall ⊢
    have hst := playNextLetter_stalled env _ (by simp [hf.1]) hstall
    rw [hst]
    have hwc := hw.trans (timersWithin_clearInitWatchdog _)
    have hfr : ∀ t ∈ (InstructionEngine._clearInitWatchdog
        (InstructionEngine.startLesson_reset env level options s)).timers,
        t.1 < s.nextTimerId := fun t ht => hfresh t (hwc.1 t ht)
    refine ⟨by simp [hw.2], ?_, by simp [hw.2], ?_, by simp [hf.2.1], by simp [hf.2.2.1],
      by simp [hf.2.2.2.1], by simp [hf.2.2.2.2]⟩
    · simp only [InstructionEngine._startInitWatchdog, setTimeout, hwc.2]
      exact lookup_append_fresh _ _ _ hfr
    · intro t ht
      simp only [InstructionEngine._startInitWatchdog, setTimeout, hwc.2, List.mem_append,
        List.mem_singleton] at ht ⊢
      rcases ht with ht | ht
      · have := hfr t ht
        omega
      · subst ht
        simp

/-- The armed watchdog fires on a lesson that is still loading and has its
retry left: `startLesson` is re-invoked with `force` and `keepRetry`. -/
theorem fireInitWatchdog_retry (env : Env) (s : State) (level : Lesson) (id : Nat)
    (hid : s.initWatchdogId = some id)
    (hlook : s.timers.lookup id = some (.initWatchdog s.lessonInitToken))
    (hst : s.lessonStatus = .loading) (hlev : s.currentLevel = some level)
    (hretry : s.lessonInitRetryCount = 0) :
    fireInitWatchdog env s =
      InstructionEngine.startLesson env (some level)
        { reason := "watchdog-retry", force := true, keepRetry := true }
        (retryState level id s) := by
  simp [fireInitWatchdog, hid, fireTimer, hlook, InstructionEngine.onInitWatchdog, hst, hlev,
    hretry, retryState]

/-- The armed watchdog fires on a lesson that is still loading and has used its
retry: the status becomes `error`. -/
theorem fireInitWatchdog_error (env : Env) (s : State) (level : Lesson) (id : Nat)
    (hid : s.initWatchdogId = some id)
    (hlook : s.timers.lookup id = some (.initWatchdog s.lessonInitToken))
    (hst : s.lessonStatus = .loading) (hlev : s.currentLevel = some level)
    (hretry : s.lessonInitRetryCount = 1) :
    fireInitWatchdog env s =
      InstructionEngine._setLessonStatus .error false
        { s with timers := s.timers.filter (fun t => t.1 != id) } := by
  simp [fireInitWatchdog, hid, fireTimer, hlook, InstructionEngine.onInitWatchdog, hst, hlev,
    hretry]

/-! ### The animation program -/

theorem interrupts_supersedes (s : State) (level : Lesson) (hlev : s.currentLevel = some level)
    (op : Op) (hop : op.interrupts s = true) :
    Superseded ⟨s.currentLetterIdx, s.currentRunId, s.lessonInitToken⟩ (op.apply s) := by
  cases op with
  | stop => simp [Superseded, Op.apply]
  | next env =>
    have hr := playNextLetter_run env
      { clearTimeout s.animationTimeout s with
        isAnimationRunning := false, currentLetterIdx := s.currentLetterIdx + 1 }
    simp only [Superseded, Op.apply, InstructionEngine.next]
    simp at hr ⊢
    exact hr
  | «repeat» env =>
    have hf := startLesson_fields env level { reason := "repeat", force := true }
      (clearTimeout s.animationTimeout s) (by simp [InstructionEngine.isIdempotentStart])
    simp only [Superseded, Op.apply, InstructionEngine.repeat, clearTimeout_fields, hlev]
    simp at hf
    refine ⟨hf.2.2.2.2, Or.inl ?_⟩
    rw [hf.1]
    omega
  | skip env =>
    have hf := finish_advances env
      { clearTimeout s.animationTimeout s with isAnimationRunning := false }
    simp only [Superseded, Op.apply, InstructionEngine.skip]
    refine ⟨le_trans (by simp) hf.1, Or.inr ⟨by simp, by simp, Or.inr (Or.inr ?_)⟩⟩
    cases h : (InstructionEngine.finish env
      { clearTimeout s.animationTimeout s with isAnimationRunning := false }).isAnimationRunning
    · rfl
    · exact absurd (hf.2 h) (by simp)
  | startLesson env lv options =>
    cases lv with
    | none => simp [Op.interrupts] at hop
    | some l =>
      simp only [Op.interrupts, Bool.not_eq_true'] at hop
      have hf := startLesson_fields env l options s hop
      simp only [Superseded, Op.apply]
      refine ⟨hf.2.2.2.2, Or.inl ?_⟩
      rw [hf.1]
      omega
  | start _ _ _ => simp [Op.interrupts] at hop
  | navigateTo _ => simp [Op.interrupts] at hop
  | timerFires _ _ => simp [Op.interrupts] at hop
  | continuationEnds _ => simp [Op.interrupts] at hop
  | paceBegin _ => simp [Op.interrupts] at hop
  | paceAfterSpeech _ => simp [Op.interrupts] at hop
  | pacerCancel => simp [Op.interrupts] at hop
  | audioStop => simp [Op.interrupts] at hop

/-! ### Lesson sequencer: the claims -/

/-- C1, amended: in a state where `playNextLetter` has captured a snapshot, after
any one of `stop`, `next`, `repeat`, `skip`, or a `startLesson` call on a lesson
that is present and not skipped as idempotent, `isStale` is true on that
snapshot, and it stays true after every further sequence of operations. -/
theorem stale_after_interruption (env : Env) (s0 s : State) (k : Continuation)
    (hcap : InstructionEngine.playNextLetter env s0 = (s, some k))
    (op : Op) (hop : op.interrupts s = true) (ops : List Op) :
    isStale k.snapshot (op.apply s) = true ∧
    isStale k.snapshot (run ops (op.apply s)) = true := by
  obtain ⟨_, ⟨level, hlev⟩, hsnap⟩ := playNextLetter_captured env s0 s k hcap
  have hsup : Superseded k.snapshot (op.apply s) := by
    rw [hsnap]
    exact interrupts_supersedes s level hlev op hop
  exact ⟨hsup.stale, (run_superseded _ ops _ hsup).stale⟩

/-- C1, amended, on the lesson a, b: the snapshot of the first step is stale after
`stop`, and still after a new start and a `next`. -/
theorem stale_after_interruption_witness :
    isStale continuationA.snapshot (Op.stop.apply startedAB) = true ∧
    isStale continuationA.snapshot
      (run [.start envOk (some lessonAB) none, .next envOk] (Op.stop.apply startedAB)) = true :=
  stale_after_interruption envOk beforeFirstStep startedAB continuationA (by decide) .stop
    (by decide) [.start envOk (some lessonAB) none, .next envOk]

/-- C1, on the code: `startLesson` with a missing level is not skipped as
idempotent, yet it only sets the status to `error`: the snapshot captured by
the running step is not stale after it. -/
theorem missing_level_start_keeps_snapshot_live :
    InstructionEngine.playNextLetter envOk beforeFirstStep = (startedAB, some continuationA) ∧
    isStale continuationA.snapshot
      (InstructionEngine.startLesson envOk none {} startedAB) = false ∧
    (InstructionEngine.startLesson envOk none {} startedAB).lessonStatus = .error := by
  decide

/-- C5, on the code: two calls of `pace` in silent mode, the first not awaited,
leave two pacing timers pending, the handle pointing to the second; when the
first fires it clears the handle, after which `cancel` no longer reaches the
second timer. The sequencer reaches this when `next` is pressed while the intro
of the first symbol is paced. -/
theorem pace_twice_two_timers :
    (run [.paceBegin false, .paceBegin false] InstructionEngine.init).timers =
      [(1, .pacerResolve), (2, .pacerResolve)] ∧
    (run [.paceBegin false, .paceBegin false] InstructionEngine.init).pendingTimerId = some 2 ∧
    (run [.paceBegin false, .paceBegin false, .timerFires envOk 1] InstructionEngine.init).timers =
      [(2, .pacerResolve)] ∧
    (run [.paceBegin false, .paceBegin false, .timerFires envOk 1]
      InstructionEngine.init).pendingTimerId = none ∧
    (run [.paceBegin false, .paceBegin false, .timerFires envOk 1, .pacerCancel]
      InstructionEngine.init).timers = [(2, .pacerResolve)] ∧
    (run [.start envOk (some lessonAB) none, .paceBegin false, .next envOk, .paceBegin false]
      InstructionEngine.init).timers = [(2, .pacerResolve), (3, .pacerResolve)] := by
  decide

/-- C2: when the status is `loading` or `ready` and the current level has the id
of the lesson, `startLesson` without `force` changes no field of the sequencer
(token, run id, index, retry count, status, current level, timers): only the
record `lesson_init_skipped` is added to the trace. -/
theorem startLesson_idempotent (env : Env) (level current : Lesson) (options : StartOptions)
    (s : State) (hforce : options.force = false)
    (hstatus : s.lessonStatus = .loading ∨ s.lessonStatus = .ready)
    (hcur : s.currentLevel = some current) (hid : current.id = level.id) :
    InstructionEngine.startLesson env (some level) options s =
      { s with trace := s.trace ++ [.lessonInitSkipped level.id options.reason] } := by
  have h : InstructionEngine.isIdempotentStart level options s = true := by
    rcases hstatus with h | h <;> simp [InstructionEngine.isIdempotentStart, hforce, h, hcur, hid]
  simp [InstructionEngine.startLesson, h, emit]

/-- C2 on the lesson a, b already running: starting it again only adds the
record of the skipped start. -/
theorem startLesson_idempotent_witness :
    InstructionEngine.startLesson envOk (some lessonAB) {} startedAB =
      { startedAB with
        trace := startedAB.trace ++ [.lessonInitSkipped lessonAB.id ({} : StartOptions).reason] } :=
  startLesson_idempotent envOk lessonAB lessonAB {} startedAB rfl (Or.inr (by decide))
    (by decide) rfl

/-- C3: a lesson is started (not skipped, `keepRetry` false) and its rendering
never reaches `ready`: the status is `loading` after the start and still
`loading` after the first watchdog firing. Then the watchdog armed by the
start is pending with the minted token; its firing counts one retry and
re-invokes `startLesson` (reason `watchdog-retry`, with `force` and
`keepRetry`), which arms a new watchdog; the second firing sets the status to
`error`, arms nothing and starts nothing: in total `startLesson` ran exactly
twice and there was exactly one retry. -/
theorem watchdog_retry_then_error (env0 env1 env2 : Env) (level : Lesson)
    (options : StartOptions) (s0 : State)
    (hfresh : TimersFresh s0)
    (hstart : InstructionEngine.isIdempotentStart level options s0 = false)
    (hkeep : options.keepRetry = false)
    (hstall1 : (InstructionEngine.startLesson env0 (some level) options s0).lessonStatus =
      .loading)
    (hstall2 : (fireInitWatchdog env1
      (InstructionEngine.startLesson env0 (some level) options s0)).lessonStatus = .loading) :
    (∃ id, (InstructionEngine.startLesson env0 (some level) options s0).initWatchdogId = some id ∧
      (InstructionEngine.startLesson env0 (some level) options s0).timers.lookup id =
        some (.initWatchdog
          (InstructionEngine.startLesson env0 (some level) options s0).lessonInitToken)) ∧
    lifecycle (fireInitWatchdog env1
        (InstructionEngine.startLesson env0 (some level) options s0)) =
      lifecycle s0 ++ [.lessonInit level.id options.reason, .lessonInitRetry level.id 1,
        .lessonInit level.id "watchdog-retry"] ∧
    (fireInitWatchdog env1
        (InstructionEngine.startLesson env0 (some level) options s0)).lessonInitRetryCount = 1 ∧
    (∃ id, (fireInitWatchdog env1
        (InstructionEngine.startLesson env0 (some level) options s0)).initWatchdogId = some id ∧
      (fireInitWatchdog env1
        (InstructionEngine.startLesson env0 (some level) options s0)).timers.lookup id =
        some (.initWatchdog (fireInitWatchdog env1
          (InstructionEngine.startLesson env0 (some level) options s0)).lessonInitToken)) ∧
    (fireInitWatchdog env2 (fireInitWatchdog env1
        (InstructionEngine.startLesson env0 (some level) options s0))).lessonStatus = .error ∧
    (fireInitWatchdog env2 (fireInitWatchdog env1
        (InstructionEngine.startLesson env0 (some level) options s0))).initWatchdogId = none ∧
    (fireInitWatchdog env2 (fireInitWatchdog env1
        (InstructionEngine.startLesson env0 (some level) options s0))).lessonInitRetryCount = 1 ∧
    lifecycle (fireInitWatchdog env2 (fireInitWatchdog env1
        (InstructionEngine.startLesson env0 (some level) options s0))) =
      lifecycle s0 ++ [.lessonInit level.id options.reason, .lessonInitRetry level.id 1,
        .lessonInit level.id "watchdog-retry"] := by
  obtain ⟨a1, a2, a3, a4, a5, a6, a7, a8⟩ :=
    startLesson_stalled env0 level options s0 hfresh hstart hstall1
  generalize InstructionEngine.startLesson env0 (some level) options s0 = s1 at *
  rw [hkeep] at a7
  have e2 := fireInitWatchdog_retry env1 s1 level s0.nextTimerId a1 (by rw [a2, a5]) hstall1 a6
    (by simpa using a7)
  have hfreshR : TimersFresh (retryState level s0.nextTimerId s1) := by
    intro t ht
    simp only [retryState, emit] at ht ⊢
    exact a4 t (List.mem_of_mem_filter ht)
  rw [e2] at hstall2 ⊢
  obtain ⟨b1, b2, b3, b4, b5, b6, b7, b8⟩ :=
    startLesson_stalled env1 level
      { reason := "watchdog-retry", force := true, keepRetry := true }
      (retryState level s0.nextTimerId s1) hfreshR
      (by simp [InstructionEngine.isIdempotentStart]) hstall2
  generalize InstructionEngine.startLesson env1 (some level)
    { reason := "watchdog-retry", force := true, keepRetry := true }
    (retryState level s0.nextTimerId s1) = s2 at *
  have hr2 : s2.lessonInitRetryCount = 1 := by
    simp only [if_true] at b7
    rw [b7]
    simp [retryState, emit]
    simpa using a7
  have hl2 : lifecycle s2 = lifecycle s0 ++ [.lessonInit level.id options.reason,
      .lessonInitRetry level.id 1, .lessonInit level.id "watchdog-retry"] := by
    unfold lifecycle
    rw [b8]
    have a7' : s1.lessonInitRetryCount = 0 := by simpa using a7
    simp [retryState, Event.isLifecycle, a8, a7']
  have e3 := fireInitWatchdog_error env2 s2 level _ b1 (by rw [b2, b5]) hstall2 b6 hr2
  rw [e3]
  refine ⟨⟨_, a1, by rw [a2, a5]⟩, hl2, hr2, ⟨_, b1, by rw [b2, b5]⟩, by simp, by simp,
    by simpa using hr2, ?_⟩
  unfold lifecycle at hl2 ⊢
  simpa using hl2

/-- C3 on a lesson whose only symbol is `null`, started from the initial state. -/
theorem watchdog_retry_then_error_witness :
    (fireInitWatchdog envOk (fireInitWatchdog envOk
        (InstructionEngine.startLesson envOk (some lessonStalled) {}
          InstructionEngine.init))).lessonStatus = .error ∧
    lifecycle (fireInitWatchdog envOk (fireInitWatchdog envOk
        (InstructionEngine.startLesson envOk (some lessonStalled) {} InstructionEngine.init))) =
      lifecycle InstructionEngine.init ++
        [.lessonInit "L0" "auto", .lessonInitRetry "L0" 1, .lessonInit "L0" "watchdog-retry"] :=
  ⟨(watchdog_retry_then_error envOk envOk envOk lessonStalled {} InstructionEngine.init
      (fun _ h => nomatch h) (by decide) rfl (by decide) (by decide)).2.2.2.2.1,
   (watchdog_retry_then_error envOk envOk envOk lessonStalled {} InstructionEngine.init
      (fun _ h => nomatch h) (by decide) rfl (by decide) (by decide)).2.2.2.2.2.2.2⟩

/-- C7: for a lesson that is present, a `startLesson` call that is not skipped as
idempotent increases `lessonInitToken` by exactly 1, makes that lesson the
current level and sets `currentLetterIdx` to 0; with `keepRetry` false it
resets `lessonInitRetryCount` to 0, with `keepRetry` true it leaves it unchanged. -/
theorem startLesson_mints_token (env : Env) (level : Lesson) (options : StartOptions) (s : State)
    (h : InstructionEngine.isIdempotentStart level options s = false) :
    (InstructionEngine.startLesson env (some level) options s).lessonInitToken =
      s.lessonInitToken + 1 ∧
    (InstructionEngine.startLesson env (some level) options s).currentLevel = some level ∧
    (InstructionEngine.startLesson env (some level) options s).currentLetterIdx = 0 ∧
    (options.keepRetry = false →
      (InstructionEngine.startLesson env (some level) options s).lessonInitRetryCount = 0) ∧
    (options.keepRetry = true →
      (InstructionEngine.startLesson env (some level) options s).lessonInitRetryCount =
        s.lessonInitRetryCount) := by
  have hf := startLesson_fields env level options s h
  refine ⟨hf.1, hf.2.1, hf.2.2.1, fun hk => ?_, fun hk => ?_⟩
  · rw [hf.2.2.2.1, hk]; rfl
  · rw [hf.2.2.2.1, hk]; rfl

/-- C7 on the lesson a, b started from the initial state. -/
theorem startLesson_mints_token_witness :
    (InstructionEngine.startLesson envOk (some lessonAB) {} InstructionEngine.init).lessonInitToken =
      InstructionEngine.init.lessonInitToken + 1 ∧
    (InstructionEngine.startLesson envOk (some lessonAB) {} InstructionEngine.init).currentLevel =
      some lessonAB ∧
    (InstructionEngine.startLesson envOk (some lessonAB) {}
      InstructionEngine.init).currentLetterIdx = 0 ∧
    (InstructionEngine.startLesson envOk (some lessonAB) {}
      InstructionEngine.init).lessonInitRetryCount = 0 :=
  ⟨(startLesson_mints_token envOk lessonAB {} InstructionEngine.init (by decide)).1,
   (startLesson_mints_token envOk lessonAB {} InstructionEngine.init (by decide)).2.1,
   (startLesson_mints_token envOk lessonAB {} InstructionEngine.init (by decide)).2.2.1,
   (startLesson_mints_token envOk lessonAB {} InstructionEngine.init (by decide)).2.2.2.1 rfl⟩

/-- C8: for a current lesson of N symbols at index i, `next` with i + 1 < N sets
the index to i + 1 and does not hand over to the game; `next` with i + 1 = N
moves the index past the end and finishes exactly once: the status is `idle`
and `GameEngine.startLevel` is called once, with the id of the current lesson
and `skipIntro = true`. -/
theorem next_advances_or_finishes (env : Env) (s : State) (level : Lesson) (letters : List Sym)
    (hcur : s.currentLevel = some level) (hlet : level.letters = some letters) :
    (s.currentLetterIdx + 1 < letters.length →
      (InstructionEngine.next env s).currentLetterIdx = s.currentLetterIdx + 1 ∧
      lifecycle (InstructionEngine.next env s) = lifecycle s) ∧
    (s.currentLetterIdx + 1 = letters.length →
      (InstructionEngine.next env s).currentLetterIdx = letters.length ∧
      (InstructionEngine.next env s).lessonStatus = .idle ∧
      lifecycle (InstructionEngine.next env s) =
        lifecycle s ++ [.gameStartLevel level.id true]) := by
  constructor
  · intro h
    refine ⟨by simp [InstructionEngine.next], ?_⟩
    unfold lifecycle InstructionEngine.next InstructionEngine.playNextLetter
    simp only [clearTimeout_fields, hcur, hlet, Nat.not_le.mpr h, if_false]
    split
    · simp
    · split
      · simp
      · split_ifs <;> simp [Event.isLifecycle]
  · intro h
    have hfin : InstructionEngine.next env s =
        InstructionEngine.finish env
          { clearTimeout s.animationTimeout s with
            isAnimationRunning := false, currentLetterIdx := s.currentLetterIdx + 1 } := by
      unfold InstructionEngine.next InstructionEngine.playNextLetter
      simp [hcur, hlet, h]
    rw [hfin]
    have hr := finish_reports env
      { clearTimeout s.animationTimeout s with
        isAnimationRunning := false, currentLetterIdx := s.currentLetterIdx + 1 } level
      (by simp [hcur])
    refine ⟨by simp [h], by simp, ?_⟩
    unfold lifecycle
    rw [hr.2.2.2]
    simp

/-- C8 on the lesson a, b: `next` at a moves to b, `next` at b finishes. -/
theorem next_advances_or_finishes_witness :
    ((InstructionEngine.next envOk startedAB).currentLetterIdx = startedAB.currentLetterIdx + 1 ∧
      lifecycle (InstructionEngine.next envOk startedAB) = lifecycle startedAB) ∧
    ((InstructionEngine.next envOk (InstructionEngine.next envOk startedAB)).currentLetterIdx = 2 ∧
      (InstructionEngine.next envOk (InstructionEngine.next envOk startedAB)).lessonStatus = .idle ∧
      lifecycle (InstructionEngine.next envOk (InstructionEngine.next envOk startedAB)) =
        lifecycle (InstructionEngine.next envOk startedAB) ++ [.gameStartLevel "L1" true]) :=
  ⟨(next_advances_or_finishes envOk startedAB lessonAB [some "a", some "b"] (by decide) rfl).1
      (by decide),
   (next_advances_or_finishes envOk (InstructionEngine.next envOk startedAB) lessonAB
      [some "a", some "b"] (by decide) rfl).2 (by decide)⟩

theorem setLessonStatus_trace (st : LessonStatus) (f : Bool) (s : State) :
    (InstructionEngine._setLessonStatus st f s).trace =
      s.trace ++ (if s.lessonStatus ≠ st ∨ f = true then [.lessonStatus s.lessonStatus st] else [])
        ++ (if st = .error then [.showInitError] else []) := by
  unfold InstructionEngine._setLessonStatus InstructionEngine._showInitError
  dsimp only
  split_ifs <;> simp_all

theorem statusLog_setLessonStatus (st : LessonStatus) (f : Bool) (s : State) :
    statusLog (InstructionEngine._setLessonStatus st f s) =
      statusLog s ++ (if s.lessonStatus ≠ st ∨ f = true then [(s.lessonStatus, st)] else []) := by
  unfold statusLog
  rw [setLessonStatus_trace]
  split_ifs <;> simp [List.filterMap_append]

theorem stop_trace (s : State) :
    (InstructionEngine.stop s).trace =
      s.trace ++ [.audioStop] ++
        (if s.lessonStatus ≠ .idle then [.lessonStatus s.lessonStatus .idle] else []) := by
  unfold InstructionEngine.stop AudioService.stop
  dsimp only
  split_ifs with h1 h2 h2
  · rw [setLessonStatus_trace]; simp_all
  · simp_all
  · simp_all
  · simp_all

theorem statusLog_stop (s : State) :
    statusLog (InstructionEngine.stop s) =
      statusLog s ++ (if s.lessonStatus ≠ .idle then [(s.lessonStatus, .idle)] else []) := by
  unfold statusLog
  rw [stop_trace]
  split_ifs <;> simp [List.filterMap_append]

theorem statusLog_stopTimes (n : Nat) (s : State) (h : s.lessonStatus = .idle) :
    statusLog (stopTimes n s) = statusLog s := by
  induction n generalizing s with
  | zero => rfl
  | succ n ih =>
    simp only [stopTimes]
    rw [ih _ (by simp), statusLog_stop]
    simp [h]

theorem statusLog_emit (e : Event) (s : State) :
    statusLog (emit e s) = statusLog s ++
      (match e with
       | .lessonStatus prev next => [(prev, next)]
       | _ => []) := by
  cases e <;> simp [statusLog, emit, List.filterMap_append]

theorem statusLog_startLevel (env : Env) (id : String) (b : Bool) (s : State) :
    statusLog (GameEngine.startLevel env id b s) =
      statusLog s ++ (if s.lessonStatus ≠ .idle then [(s.lessonStatus, .idle)] else []) := by
  unfold GameEngine.startLevel
  rw [statusLog_stopTimes _ _ (by simp), statusLog_stop, statusLog_emit]
  simp

theorem statusLog_finish (env : Env) (s : State) (level : Lesson)
    (h : s.currentLevel = some level) :
    statusLog (InstructionEngine.finish env s) = statusLog s ++ [(s.lessonStatus, .idle)] := by
  unfold InstructionEngine.finish
  simp only [setLessonStatus_fields, h]
  rw [statusLog_startLevel, statusLog_setLessonStatus]
  simp

theorem statusLog_startLesson_reset (env : Env) (level : Lesson) (options : StartOptions)
    (s : State) :
    statusLog (InstructionEngine.startLesson_reset env level options s) =
      statusLog s ++ (if s.lessonStatus ≠ .idle then [(s.lessonStatus, .idle)] else []) ++
        [(.idle, .loading)] := by
  unfold InstructionEngine.startLesson_reset InstructionEngine._resetInitUi
  cases hk : options.keepRetry <;> cases ho : env.onInstructionScreen <;>
    simp [statusLog_emit, statusLog_setLessonStatus, statusLog_stop, navigateTo] <;>
    simp [statusLog, emit, stop_trace, List.filterMap_append] <;>
    split_ifs <;> simp

/-- C11, amended: for every lesson whose `letters` list is empty, a call of
`startLesson` that is not skipped as a repeated start goes one of two ways.
With the progress container present it ends with `lessonStatus = idle`, the
status having changed to `loading` and then to `idle`, and it hands the level
over to the game: `GameEngine.startLevel(id, true)` follows `lesson_init` in
the lifecycle. With the container missing it ends with `lessonStatus = error`
and the game is not called. The status `ready` is not entered either way. -/
theorem empty_lesson_hands_over (env : Env) (level : Lesson) (options : StartOptions) (s : State)
    (hempty : level.letters = some [])
    (hstart : InstructionEngine.isIdempotentStart level options s = false) :
    (env.hasProgressDots = true →
      (InstructionEngine.startLesson env (some level) options s).lessonStatus = .idle ∧
      lifecycle (InstructionEngine.startLesson env (some level) options s) =
        lifecycle s ++ [.lessonInit level.id options.reason, .gameStartLevel level.id true] ∧
      statusLog (InstructionEngine.startLesson env (some level) options s) =
        statusLog s ++ (if s.lessonStatus ≠ .idle then [(s.lessonStatus, .idle)] else []) ++
          [(.idle, .loading), (.loading, .idle)]) ∧
    (env.hasProgressDots = false →
      (InstructionEngine.startLesson env (some level) options s).lessonStatus = .error ∧
      lifecycle (InstructionEngine.startLesson env (some level) options s) =
        lifecycle s ++ [.lessonInit level.id options.reason] ∧
      statusLog (InstructionEngine.startLesson env (some level) options s) =
        statusLog s ++ (if s.lessonStatus ≠ .idle then [(s.lessonStatus, .idle)] else []) ++
          [(.idle, .loading), (.loading, .error)]) := by
  have hf := startLesson_reset_fields env level options s
  have hl := statusLog_startLesson_reset env level options s
  constructor
  · intro hp
    have hrun : InstructionEngine.startLesson env (some level) options s =
        InstructionEngine.finish env (InstructionEngine._startInitWatchdog (s.lessonInitToken + 1)
          (InstructionEngine.startLesson_reset env level options s)) := by
      unfold InstructionEngine.startLesson InstructionEngine.playNextLetter
      simp [hstart, hp, hempty, hf.2.2.1]
    rw [hrun]
    have hr := finish_reports env (InstructionEngine._startInitWatchdog (s.lessonInitToken + 1)
      (InstructionEngine.startLesson_reset env level options s)) level (by simp [hf.2.2.1])
    refine ⟨by simp, ?_, ?_⟩
    · unfold lifecycle
      rw [hr.2.2.2]
      simp [hf.2.2.2.2]
    · rw [statusLog_finish env _ level (by simp [hf.2.2.1])]
      have e : statusLog (InstructionEngine._startInitWatchdog (s.lessonInitToken + 1)
          (InstructionEngine.startLesson_reset env level options s)) =
          statusLog (InstructionEngine.startLesson_reset env level options s) := by
        simp [statusLog]
      rw [e, hl]
      simp [hf.1]
  · intro hp
    have hrun : InstructionEngine.startLesson env (some level) options s =
        InstructionEngine._setLessonStatus .error false
          (emit .lessonInitError (InstructionEngine.startLesson_reset env level options s)) := by
      unfold InstructionEngine.startLesson
      simp [hstart, hp]
    rw [hrun]
    refine ⟨by simp, ?_, ?_⟩
    · unfold lifecycle
      simp [hf.2.2.2.2, Event.isLifecycle]
    · rw [statusLog_setLessonStatus, statusLog_emit, hl]
      simp [hf.1]

/-- C11, amended, on the lesson `0-1` started from the initial state with every
element of the page present. -/
theorem empty_lesson_hands_over_witness :
    (InstructionEngine.startLesson envOk (some lessonEmpty) {} InstructionEngine.init).lessonStatus =
      .idle ∧
    lifecycle (InstructionEngine.startLesson envOk (some lessonEmpty) {} InstructionEngine.init) =
      lifecycle InstructionEngine.init ++
        [.lessonInit lessonEmpty.id ({} : StartOptions).reason,
         .gameStartLevel lessonEmpty.id true] ∧
    statusLog (InstructionEngine.startLesson envOk (some lessonEmpty) {} InstructionEngine.init) =
      statusLog InstructionEngine.init ++
        (if InstructionEngine.init.lessonStatus ≠ .idle then
          [(InstructionEngine.init.lessonStatus, .idle)] else []) ++
        [(.idle, .loading), (.loading, .idle)] :=
  (empty_lesson_hands_over envOk lessonEmpty {} InstructionEngine.init rfl (by decide)).1 rfl

/-- C11, on the code: started from the initial state, the lesson `0-1`, whose
`letters` list is empty, ends with the status `idle`, not `error`, and the
game is told to start the level. -/
theorem empty_lesson_not_error :
    (InstructionEngine.startLesson envOk (some lessonEmpty) {} InstructionEngine.init).lessonStatus =
      .idle ∧
    lifecycle (InstructionEngine.startLesson envOk (some lessonEmpty) {} InstructionEngine.init) =
      [.lessonInit "0-1" "auto", .gameStartLevel "0-1" true] := by
  decide

theorem clearTimeout_timers (id : Option Nat) (s : State) :
    (clearTimeout id s).timers = dropTimer id s.timers := by
  cases id <;> rfl

theorem clearInitWatchdog_timers (s : State) :
    (InstructionEngine._clearInitWatchdog s).timers = dropTimer s.initWatchdogId s.timers := by
  unfold InstructionEngine._clearInitWatchdog
  split <;> simp [*, dropTimer, clearTimeout]

theorem cancel_timers (s : State) :
    (LessonPacer.cancel s).timers = dropTimer s.pendingTimerId s.timers := by
  unfold LessonPacer.cancel
  split <;> simp [*, dropTimer, clearTimeout]

theorem setLessonStatus_idle_timers (f : Bool) (s : State) :
    (InstructionEngine._setLessonStatus .idle f s).timers = s.timers := by
  unfold InstructionEngine._setLessonStatus
  dsimp only
  split_ifs <;> simp_all [emit]

theorem stop_timers (s : State) :
    (InstructionEngine.stop s).timers =
      dropTimer s.pendingTimerId (dropTimer s.initWatchdogId
        (dropTimer s.animationTimeout s.timers)) := by
  unfold InstructionEngine.stop AudioService.stop
  dsimp only
  split_ifs
  · rw [setLessonStatus_idle_timers, cancel_timers]
    simp [emit, clearInitWatchdog_timers, clearTimeout_timers]
  · rw [cancel_timers]
    simp [emit, clearInitWatchdog_timers, clearTimeout_timers]

theorem dropTimer_any (h : Option Nat) (id : Nat) (l : List (Nat × TimerCallback))
    (hl : h = some id ∨ l.any (fun t => t.1 == id) = false) :
    (dropTimer h l).any (fun t => t.1 == id) = false := by
  rw [List.any_eq_false] at *
  rcases hl with hl | hl
  · subst hl
    intro x hx
    simp only [dropTimer, List.mem_filter] at hx
    simpa using hx.2
  · intro x hx
    cases h with
    | none => exact hl x hx
    | some i => exact hl x (List.mem_of_mem_filter hx)

/-- C14: if `LessonPacer.pace` fulfils or rejects after `d`, the step wait of
`_safeSpeakAndWait` fulfils after `min d AUDIO_STEP_TIMEOUT`; if `pace` never
settles, it fulfils after `AUDIO_STEP_TIMEOUT`; it never rejects. When the
ceiling fires first, narration is stopped, `pendingTimerId` is `null`, and the
pacing timer is no longer pending. -/
theorem safeSpeakAndWait_ceiling (s : State) :
    (∀ d : ℚ, (InstructionEngine._safeSpeakAndWait (.fulfilled d) s).1 =
      .fulfilled (min d (TIMING .AUDIO_STEP_TIMEOUT : ℚ))) ∧
    (∀ d : ℚ, (InstructionEngine._safeSpeakAndWait (.rejected d) s).1 =
      .fulfilled (min d (TIMING .AUDIO_STEP_TIMEOUT : ℚ))) ∧
    (InstructionEngine._safeSpeakAndWait .never s).1 =
      .fulfilled (TIMING .AUDIO_STEP_TIMEOUT : ℚ) ∧
    (∀ pace, (InstructionEngine._safeSpeakAndWait_race pace).1 = .timeout →
      (InstructionEngine._safeSpeakAndWait pace s).2.pendingTimerId = none ∧
      (InstructionEngine._safeSpeakAndWait pace s).2.trace = s.trace ++ [.audioStop] ∧
      ∀ id, s.pendingTimerId = some id →
        isPending id (InstructionEngine._safeSpeakAndWait pace s).2 = false) := by
  refine ⟨fun d => ?_, fun d => ?_, rfl, fun pace h => ?_⟩
  · simp only [InstructionEngine._safeSpeakAndWait, InstructionEngine._safeSpeakAndWait_race]
    split_ifs with hd
    · rw [min_eq_left (le_of_lt hd)]
    · rw [min_eq_right (not_lt.mp hd)]
  · simp only [InstructionEngine._safeSpeakAndWait, InstructionEngine._safeSpeakAndWait_race]
    split_ifs with hd
    · rw [min_eq_left (le_of_lt hd)]
    · rw [min_eq_right (not_lt.mp hd)]
  · simp only [InstructionEngine._safeSpeakAndWait, h,
      InstructionEngine._safeSpeakAndWait_settle, AudioService.stop]
    refine ⟨by simp, by simp, fun id hid => ?_⟩
    unfold isPending
    rw [cancel_timers]
    exact dropTimer_any _ _ _ (Or.inl (by simpa using hid))

/-! ### Dot comparison and distractors -/

theorem everyFrom_eq (b : List Nat) (a : List Nat) (k : Nat) (h : a.length + k = b.length) :
    everyFrom (fun dot i => b[i]? == some dot) k a = true ↔ a = b.drop k := by
  induction a generalizing k with
  | nil =>
    have : b.length ≤ k := by simp at h; omega
    simp [everyFrom, List.drop_eq_nil_of_le this]
  | cons x xs ih =>
    have hk : k < b.length := by simp at h; omega
    have hxs : xs.length + (k + 1) = b.length := by simp at h; omega
    simp only [everyFrom, Bool.and_eq_true, beq_iff_eq, ih (k + 1) hxs]
    rw [List.drop_eq_getElem_cons hk, List.getElem?_eq_getElem hk]
    simp only [Option.some.injEq, List.cons.injEq]
    constructor
    · rintro ⟨h1, h2⟩; exact ⟨h1.symm, h2⟩
    · rintro ⟨h1, h2⟩; exact ⟨h1.symm, h2⟩

theorem sortAscending_eq_iff (u c : List Nat) : sortAscending u = sortAscending c ↔ u.Perm c := by
  unfold sortAscending
  constructor
  · intro h
    have hu := List.perm_insertionSort (fun a b : Nat => a ≤ b) u
    have hc := List.perm_insertionSort (fun a b : Nat => a ≤ b) c
    rw [h] at hu
    exact hu.symm.trans hc
  · intro h
    exact List.eq_of_perm_of_sorted
      (((List.perm_insertionSort _ u).trans h).trans (List.perm_insertionSort _ c).symm)
      (List.sorted_insertionSort _ u) (List.sorted_insertionSort _ c)

/-- C15: `dotsMatch(u, c)` is true exactly when `u` is a permutation of `c`; it
is false whenever the lengths differ, and true for two empty lists. -/
theorem dotsMatch_iff_perm (u c : List Nat) :
    (dotsMatch u c = true ↔ u.Perm c) ∧
    (u.length ≠ c.length → dotsMatch u c = false) ∧
    dotsMatch [] [] = true := by
  refine ⟨?_, fun h => by simp [dotsMatch, h], by decide⟩
  unfold dotsMatch
  by_cases hl : u.length = c.length
  · have hlen : (sortAscending u).length + 0 = (sortAscending c).length := by
      simp [sortAscending, List.length_insertionSort, hl]
    simp only [hl, ne_eq, not_true_eq_false, if_false]
    rw [everyFrom_eq _ _ 0 hlen, List.drop_zero, sortAscending_eq_iff]
  · simp only [ne_eq, hl, not_false_eq_true, if_true]
    constructor
    · intro h; cases h
    · intro h; exact absurd h.length_eq hl

theorem scoreLetter_letter (c : String) (correct : Dots) (l : String) (sc : Scored)
    (h : scoreLetter c correct l = some sc) : sc.letter = l := by
  unfold scoreLetter at h
  split at h
  · cases h
  · simp only [Option.some.injEq] at h
    rw [← h]

theorem scoreLetter_isSome (c : String) (correct : Dots) (l : String) :
    (scoreLetter c correct l).isSome = (resolveDots (some l)).isSome := by
  unfold scoreLetter
  split <;> simp [*]

theorem sliceTo_subset {α : Type} (count : Int) (l : List α) (x : α) (h : x ∈ sliceTo count l) :
    x ∈ l := by
  unfold sliceTo at h
  split_ifs at h <;> exact List.mem_of_mem_take h

/-- C16: for every correct letter, every count and every list of available
letters (or none), no entry of the list returned by `generateDistractors` is
the correct letter. -/
theorem generateDistractors_excludes_correct (correctLetter : Sym) (count : Int)
    (availableLetters : Option (List Sym)) (x : String)
    (hx : x ∈ generateDistractors correctLetter count availableLetters) :
    some x ≠ correctLetter := by
  unfold generateDistractors at hx
  split at hx
  · rename_i correctText correct _ _
    simp only [List.mem_map] at hx
    obtain ⟨sc, hsc, rfl⟩ := hx
    have h1 := sliceTo_subset _ _ _ hsc
    unfold sortBySimilarity at h1
    rw [List.mem_insertionSort, List.mem_filterMap] at h1
    obtain ⟨l, hl, hs⟩ := h1
    rw [scoreLetter_letter _ _ _ _ hs]
    rw [List.mem_filter] at hl
    intro heq
    simp only [Option.some.injEq] at heq
    simp [heq] at hl
  · cases hx

/-- C16, for the letter a with the default candidates: e is returned, and it is
not the correct letter. -/
theorem generateDistractors_excludes_correct_witness :
    "e" ∈ generateDistractors (some "a") 3 none ∧ some "e" ≠ some "a" :=
  ⟨by decide, generateDistractors_excludes_correct (some "a") 3 none "e" (by decide)⟩

/-- C18, on the code: in the level that teaches the two question marks, the
distractor returned for the closing mark is the opening mark, whose pattern,
dots 2 and 6, is the pattern of the closing mark itself: candidates are
filtered by their letter, not by their pattern. -/
theorem distractor_shares_correct_pattern :
    generateDistractors (some "?") 3 (some [some "¿", some "?"]) = ["¿"] ∧
    resolveDots (some "¿") = some [2, 6] ∧
    resolveDots (some "?") = some [2, 6] := by
  decide

/-! ### State migration -/

theorem migrateProgress_levels_frame (st : MigrationStore) :
    (migrateProgress_levels st).parsedProgress = st.parsedProgress ∧
    (migrateProgress_levels st).defaultProgress = st.defaultProgress ∧
    (∀ key, key ≠ "levelsCompleted" →
      (migrateProgress_levels st).mergedProgress key = st.mergedProgress key) := by
  unfold migrateProgress_levels
  split
  · dsimp only
    split_ifs
    · refine ⟨rfl, rfl, fun key hk => ?_⟩
      simp [Obj.set, hk]
    · exact ⟨rfl, rfl, fun _ _ => rfl⟩
  · exact ⟨rfl, rfl, fun _ _ => rfl⟩

theorem migrateProgress_xp_frame (st : MigrationStore) :
    (migrateProgress_xp st).parsedProgress = st.parsedProgress ∧
    (migrateProgress_xp st).defaultProgress = st.defaultProgress ∧
    (∀ key, key ≠ "totalXP" →
      (migrateProgress_xp st).mergedProgress key = st.mergedProgress key) := by
  unfold migrateProgress_xp
  split
  · refine ⟨rfl, rfl, fun key hk => ?_⟩
    simp [Obj.set, hk]
  · exact ⟨rfl, rfl, fun _ _ => rfl⟩

theorem migrateProgress_delete_frame (k : String) (st : MigrationStore) :
    (migrateProgress_delete k st).parsedProgress = st.parsedProgress ∧
    (migrateProgress_delete k st).defaultProgress = st.defaultProgress ∧
    (migrateProgress_delete k st).mergedProgress k = none ∧
    (∀ key, key ≠ k →
      (migrateProgress_delete k st).mergedProgress key = st.mergedProgress key) ∧
    (st.migrated = true → (migrateProgress_delete k st).migrated = true) := by
  unfold migrateProgress_delete
  split_ifs with h
  · refine ⟨rfl, rfl, by simp [Obj.delete], fun key hk => by simp [Obj.delete, hk], fun _ => rfl⟩
  · refine ⟨rfl, rfl, ?_, fun _ _ => rfl, fun h' => h'⟩
    simpa [Obj.hasOwnProperty] using h

/-- C20: for every parsed progress and every default progress, the progress
returned by `migrateProgress` has neither the key `xp` nor the key
`completedLevels`, and both arguments are, when it returns, what they were. -/
theorem migrateProgress_removes_legacy (parsedProgress defaultProgress : Obj) :
    (migrateProgress parsedProgress defaultProgress).1 "xp" = none ∧
    (migrateProgress parsedProgress defaultProgress).1 "completedLevels" = none ∧
    (migrateProgress_run parsedProgress defaultProgress).parsedProgress = parsedProgress ∧
    (migrateProgress_run parsedProgress defaultProgress).defaultProgress = defaultProgress := by
  unfold migrateProgress migrateProgress_run
  dsimp only
  generalize hst0 : (⟨parsedProgress, defaultProgress,
    Obj.spread defaultProgress parsedProgress, false⟩ : MigrationStore) = st0
  have hl := migrateProgress_levels_frame st0
  generalize migrateProgress_levels st0 = st1 at hl
  have hx := migrateProgress_xp_frame st1
  generalize migrateProgress_xp st1 = st2 at hx
  have hd1 := migrateProgress_delete_frame "xp" st2
  generalize migrateProgress_delete "xp" st2 = st3 at hd1
  have hd2 := migrateProgress_delete_frame "completedLevels" st3
  generalize migrateProgress_delete "completedLevels" st3 = st4 at hd2
  refine ⟨?_, hd2.2.2.1, ?_, ?_⟩
  · rw [hd2.2.2.2.1 "xp" (by decide)]
    exact hd1.2.2.1
  · rw [hd2.1, hd1.1, hx.1, hl.1, ← hst0]
  · rw [hd2.2.1, hd1.2.1, hx.2.1, hl.2.1, ← hst0]

/-! ### Braille tables and timing constants -/

/-- C23: each digit has a pattern in `BRAILLE_NUMBERS`, and it is the pattern
that `BRAILLE_ALPHABET` gives the letter paired with it: 1 to 9 with a to i, and
0 with j. The pairs cover every key of `BRAILLE_NUMBERS` and the first ten
letters of `BRAILLE_ALPHABET`, in order. -/
theorem digits_reuse_letters :
    (∀ p ∈ digitLetters, (BRAILLE_NUMBERS.get p.1).isSome = true ∧
      BRAILLE_NUMBERS.get p.1 = BRAILLE_ALPHABET.get p.2) ∧
    digitLetters.map (fun p => p.1) = BRAILLE_NUMBERS.map (fun e => e.1) ∧
    digitLetters.map (fun p => p.2) = (BRAILLE_ALPHABET.take 10).map (fun e => e.1) := by
  decide

/-- C30: across `BRAILLE_ALPHABET` and `BRAILLE_ACCENTS` together, two entries
with different letters have different dot patterns, and every pattern is not
empty, strictly increasing, and made of dot numbers between 1 and 6; no letter
is listed twice. -/
theorem letter_patterns_distinct_well_formed :
    (∀ x ∈ letterTable, ∀ y ∈ letterTable, x.1 ≠ y.1 → x.2 ≠ y.2) ∧
    (∀ x ∈ letterTable, x.2 ≠ [] ∧ x.2.Pairwise (fun a b => a < b) ∧
      ∀ d ∈ x.2, 1 ≤ d ∧ d ≤ 6) ∧
    (letterTable.map (fun e => e.1)).Nodup := by
  refine ⟨by decide, by decide, ?_⟩
  simp [letterTable, BRAILLE_ALPHABET, BRAILLE_ACCENTS]

/-- C25, on the code: `LESSON_INIT_TIMEOUT` and `AUDIO_STEP_TIMEOUT` are both
7000 ms, so the watchdog is not strictly longer than the step ceiling. -/
theorem watchdog_equals_step_ceiling :
    TIMING .LESSON_INIT_TIMEOUT = 7000 ∧ TIMING .AUDIO_STEP_TIMEOUT = 7000 ∧
    ¬ (TIMING .AUDIO_STEP_TIMEOUT < TIMING .LESSON_INIT_TIMEOUT) := by
  decide

/-- C25, amended: the watchdog `LESSON_INIT_TIMEOUT` is at least as long as the
step ceiling `AUDIO_STEP_TIMEOUT`, and the step ceiling is strictly longer than
each of the fixed holds `INTRO_PAUSE`, `PREFIX_DOT`, `INTER_CELL`, `MAIN_DOT`
and `DOT_GAP`. -/
theorem timeout_hierarchy :
    TIMING .AUDIO_STEP_TIMEOUT ≤ TIMING .LESSON_INIT_TIMEOUT ∧
    ∀ key ∈ holdKeys, TIMING key < TIMING .AUDIO_STEP_TIMEOUT := by
  decide

/-! ### State migration: levels and the current schema -/

/-- C22: when neither the parsed progress nor the default progress has the key
`xp` or the key `completedLevels`, `migrateProgress` returns `migrated = false`
and the default progress overlaid with the parsed progress: every parsed field
is kept, every other field is the default one. -/
theorem migrateProgress_current_schema (parsedProgress defaultProgress : Obj)
    (hpx : parsedProgress "xp" = none) (hpc : parsedProgress "completedLevels" = none)
    (hdx : defaultProgress "xp" = none) (hdc : defaultProgress "completedLevels" = none) :
    migrateProgress parsedProgress defaultProgress =
      (Obj.spread defaultProgress parsedProgress, false) ∧
    (∀ key value, parsedProgress key = some value →
      (migrateProgress parsedProgress defaultProgress).1 key = some value) ∧
    (∀ key, parsedProgress key = none →
      (migrateProgress parsedProgress defaultProgress).1 key = defaultProgress key) := by
  have hmain : migrateProgress parsedProgress defaultProgress =
      (Obj.spread defaultProgress parsedProgress, false) := by
    simp [migrateProgress, migrateProgress_run, migrateProgress_levels, migrateProgress_xp,
      migrateProgress_delete, Obj.read, Obj.hasOwnProperty, Obj.spread, hpx, hpc, hdx, hdc]
  refine ⟨hmain, fun key value h => ?_, fun key h => ?_⟩
  · rw [hmain]; simp [Obj.spread, h]
  · rw [hmain]; simp [Obj.spread, h]

/-- C22, on the progress of the second unit test: total 20 and the level 2-1,
over defaults of total 5 and no level. -/
theorem migrateProgress_current_schema_witness :
    migrateProgress currentProgress defaultProgressOfSecondTest =
      (Obj.spread defaultProgressOfSecondTest currentProgress, false) :=
  (migrateProgress_current_schema currentProgress defaultProgressOfSecondTest
    (by decide) (by decide) (by decide) (by decide)).1

/-- C21, on the code: with the current list 1-1, 1-1 and the legacy list 1-2, the
union 1-1, 1-2 has the length of the current list, so it is not assigned: the
result keeps 1-1 twice, lacks 1-2, and the legacy list is deleted. -/
theorem migrateProgress_drops_legacy_level :
    (migrateProgress repeatedLevelProgress emptyDefaultProgress).1.read "levelsCompleted" =
      .arr ["1-1", "1-1"] ∧
    (migrateProgress repeatedLevelProgress emptyDefaultProgress).1 "completedLevels" = none ∧
    (migrateProgress repeatedLevelProgress emptyDefaultProgress).2 = true := by
  decide

/-! ### Duration estimate: pieces and words -/

/-- The runs of white space and the runs of other characters of a text, counted
from a position that follows white space, or that follows another character. -/
theorem whiteSpaceRuns_wordRuns (l : List Char) :
    whiteSpaceRuns true l + 1 = wordRuns false l + (if endsInWhiteSpace true l then 1 else 0) ∧
    whiteSpaceRuns false l = wordRuns true l + (if endsInWhiteSpace false l then 1 else 0) := by
  induction l with
  | nil => simp [whiteSpaceRuns, wordRuns, endsInWhiteSpace]
  | cons c rest ih =>
    by_cases hc : isWhiteSpace c = true
    · simp only [whiteSpaceRuns, wordRuns, endsInWhiteSpace, hc, if_true]
      constructor
      · simpa using ih.1
      · have := ih.1
        simp only [Bool.false_eq_true, if_false]
        omega
    · have hc' : isWhiteSpace c = false := by simpa using hc
      simp only [whiteSpaceRuns, wordRuns, endsInWhiteSpace, hc', Bool.false_eq_true, if_false,
        if_true]
      constructor
      · have := ih.2
        omega
      · simpa using ih.2

/-- The pieces that `split` yields are the words of the text, one empty piece
more when the text is empty or starts with white space, and one more when it
ends with white space. -/
theorem splitLength_wordCount (text : String) :
    splitLength text = wordCount text + (if hasEmptyFirstPiece text then 1 else 0) +
      (if hasEmptyLastPiece text then 1 else 0) := by
  unfold splitLength wordCount hasEmptyFirstPiece hasEmptyLastPiece
  cases h : text.data with
  | nil => simp [whiteSpaceRuns, wordRuns, endsInWhiteSpace]
  | cons c rest =>
    have ih := whiteSpaceRuns_wordRuns rest
    by_cases hc : isWhiteSpace c = true
    · simp only [whiteSpaceRuns, wordRuns, endsInWhiteSpace, hc, if_true, Bool.false_eq_true,
        if_false]
      have := ih.1
      omega
    · have hc' : isWhiteSpace c = false := by simpa using hc
      simp only [whiteSpaceRuns, wordRuns, endsInWhiteSpace, hc', Bool.false_eq_true, if_false]
      have := ih.2
      omega

/-- The estimate is the duration formula taken at the number of pieces of
`text.split(/\s+/)`, for every speed. -/
theorem estimateSpeechDuration_eq (audioSpeed : ℚ) (text : String) :
    LessonPacer.estimateSpeechDuration audioSpeed text =
      durationFormula (splitLength text) audioSpeed text := by
  unfold LessonPacer.estimateSpeechDuration durationFormula
  dsimp only
  congr 1
  by_cases hs : audioSpeed = 0
  · subst hs; simp; ring
  · field_simp
    ring

/-- The estimate follows the duration formula with the number of words of the
text whenever the text is not empty and neither starts nor ends with white
space; in general the count it uses is the number of pieces of `split`. -/
theorem estimateSpeechDuration_formula (audioSpeed : ℚ) (text : String) :
    LessonPacer.estimateSpeechDuration audioSpeed text =
      durationFormula (splitLength text) audioSpeed text ∧
    splitLength text = wordCount text + (if hasEmptyFirstPiece text then 1 else 0) +
      (if hasEmptyLastPiece text then 1 else 0) ∧
    (hasEmptyFirstPiece text = false → hasEmptyLastPiece text = false →
      LessonPacer.estimateSpeechDuration audioSpeed text =
        durationFormula (wordCount text) audioSpeed text) := by
  refine ⟨estimateSpeechDuration_eq audioSpeed text, splitLength_wordCount text, fun h1 h2 => ?_⟩
  rw [estimateSpeechDuration_eq, splitLength_wordCount, h1, h2]
  simp

/-! ### Auto-advance -/

/-- The method `next` moves the index on by one and keeps the lesson. -/
theorem next_index (env : Env) (s : State) :
    (InstructionEngine.next env s).currentLetterIdx = s.currentLetterIdx + 1 ∧
    (InstructionEngine.next env s).currentLevel = s.currentLevel := by
  simp [InstructionEngine.next]

/-- C27: for a lesson of `N ≥ 1` symbols at index `i`, the callback of the
auto-advance timer does what `next` does exactly when `i < N - 1`; otherwise
it leaves the state as it is. When the timer fires at the final symbol,
`i = N - 1`, only the fired timer leaves the timer table: the trace (so no
hand-over to the game), the index and the status are unchanged. -/
theorem autoAdvance_stops_at_final_symbol (env : Env) (s : State) (level : Lesson)
    (letters : List Sym) (hlevel : s.currentLevel = some level)
    (hletters : level.letters = some letters) (hN : 1 ≤ letters.length) :
    (InstructionEngine.onAutoAdvance env s = InstructionEngine.next env s ↔
      s.currentLetterIdx < letters.length - 1) ∧
    (¬ s.currentLetterIdx < letters.length - 1 → InstructionEngine.onAutoAdvance env s = s) ∧
    (s.currentLetterIdx = letters.length - 1 →
      ∀ id, s.timers.lookup id = some .autoAdvance →
        fireTimer env id s = { s with timers := s.timers.filter (fun t => t.1 != id) } ∧
        (fireTimer env id s).trace = s.trace ∧
        (fireTimer env id s).currentLetterIdx = s.currentLetterIdx ∧
        (fireTimer env id s).lessonStatus = s.lessonStatus) := by
  have hrun : ∀ t : State, t.currentLevel = some level →
      InstructionEngine.onAutoAdvance env t =
        if t.currentLetterIdx + 1 < letters.length then InstructionEngine.next env t else t := by
    intro t ht
    simp [InstructionEngine.onAutoAdvance, ht, hletters]
  refine ⟨?_, ?_, ?_⟩
  · rw [hrun s hlevel]
    constructor
    · intro h
      by_contra hlt
      have hlt' : ¬ s.currentLetterIdx + 1 < letters.length := by omega
      rw [if_neg hlt'] at h
      have := (next_index env s).1
      rw [← h] at this
      omega
    · intro h
      rw [if_pos (by omega)]
  · intro h
    rw [hrun s hlevel, if_neg (by omega)]
  · intro hi id hid
    have hfire : fireTimer env id s =
        { s with timers := s.timers.filter (fun t => t.1 != id) } := by
      have h2 := hrun { s with timers := s.timers.filter (fun t => t.1 != id) } hlevel
      rw [if_neg (by dsimp only; omega)] at h2
      unfold fireTimer
      rw [hid]
      exact h2
    rw [hfire]
    exact ⟨rfl, rfl, rfl, rfl⟩

/-- C27, on the lesson a, b: at the first symbol the callback advances exactly
when 0 < 1; at the second symbol it leaves the state as it is. -/
theorem autoAdvance_stops_at_final_symbol_witness :
    (InstructionEngine.onAutoAdvance envOk startedAB = InstructionEngine.next envOk startedAB ↔
      startedAB.currentLetterIdx < [some "a", some "b"].length - 1) ∧
    InstructionEngine.onAutoAdvance envOk (InstructionEngine.next envOk startedAB) =
      InstructionEngine.next envOk startedAB :=
  ⟨(autoAdvance_stops_at_final_symbol envOk startedAB lessonAB [some "a", some "b"]
      (by decide) (by decide) (by decide)).1,
   (autoAdvance_stops_at_final_symbol envOk (InstructionEngine.next envOk startedAB) lessonAB
      [some "a", some "b"] (by decide) (by decide) (by decide)).2.1 (by decide)⟩

/-! ### Distractors: ranking -/

/-- The record that `scoreLetter` builds carries the candidate and its score. -/
theorem scoreLetter_similarity (c : String) (correct : Dots) (l : String) (sc : Scored)
    (h : scoreLetter c correct l = some sc) :
    sc.letter = l ∧ sc.similarity = similarityOf c correct l := by
  unfold scoreLetter at h
  unfold similarityOf similarityScore
  split at h
  · cases h
  · rename_i dots hd
    simp only [Option.some.injEq] at h
    rw [← h, hd]
    exact ⟨rfl, rfl⟩

/-- The sorted candidates are in non-increasing order of similarity. -/
theorem sortBySimilarity_sorted (scored : List Scored) :
    (sortBySimilarity scored).Pairwise (fun a b => b.similarity ≤ a.similarity) := by
  haveI : IsTotal Scored (fun a b => b.similarity ≤ a.similarity) :=
    ⟨fun a b => le_total b.similarity a.similarity⟩
  haveI : IsTrans Scored (fun a b => b.similarity ≤ a.similarity) :=
    ⟨fun a b c hab hbc => le_trans hbc hab⟩
  exact List.sorted_insertionSort _ scored

/-- The call `slice(0, count)` keeps a prefix, for every integer `count`. -/
theorem sliceTo_eq_take {α : Type} (count : Int) (l : List α) :
    ∃ k, sliceTo count l = l.take k := by
  unfold sliceTo
  split_ifs
  · exact ⟨_, rfl⟩
  · exact ⟨_, rfl⟩

/-- The scored candidates are the candidates other than the correct letter that
have a dot pattern. -/
theorem mem_scored (c : String) (correct : Dots) (letters : List String) (sc : Scored) :
    sc ∈ sortBySimilarity ((letters.filter (fun l => l != c)).filterMap (scoreLetter c correct)) ↔
      ∃ l ∈ letters, l ≠ c ∧ scoreLetter c correct l = some sc := by
  unfold sortBySimilarity
  rw [List.mem_insertionSort, List.mem_filterMap]
  constructor
  · rintro ⟨l, hl, hs⟩
    rw [List.mem_filter] at hl
    exact ⟨l, hl.1, by simpa using hl.2, hs⟩
  · rintro ⟨l, hl, hne, hs⟩
    exact ⟨l, List.mem_filter.mpr ⟨hl, by simpa using hne⟩, hs⟩

/-- C28: for a correct letter with the dot pattern `correct`, the letters
returned by `generateDistractors` are in non-increasing order of similarity
score, and every returned letter scores at least as high as every candidate
that differs from the correct letter, has a dot pattern, and is not returned. -/
theorem generateDistractors_most_similar (c : String) (correct : Dots) (count : Int)
    (availableLetters : Option (List Sym)) (h : resolveDots (some c) = some correct) :
    (generateDistractors (some c) count availableLetters).Pairwise
      (fun x y => similarityOf c correct y ≤ similarityOf c correct x) ∧
    (∀ x ∈ generateDistractors (some c) count availableLetters,
      ∀ y ∈ candidateLetters availableLetters, y ≠ c → (resolveDots (some y)).isSome = true →
        y ∉ generateDistractors (some c) count availableLetters →
        similarityOf c correct y ≤ similarityOf c correct x) := by
  have hgen : generateDistractors (some c) count availableLetters =
      (sliceTo count (sortBySimilarity (((candidateLetters availableLetters).filter
        (fun l => l != c)).filterMap (scoreLetter c correct)))).map (fun sc => sc.letter) := by
    simp [generateDistractors, h]
  generalize hL : sortBySimilarity (((candidateLetters availableLetters).filter
    (fun l => l != c)).filterMap (scoreLetter c correct)) = L at hgen
  have hmem : ∀ sc, sc ∈ L ↔ ∃ l ∈ candidateLetters availableLetters, l ≠ c ∧
      scoreLetter c correct l = some sc := by
    intro sc
    rw [← hL]
    exact mem_scored c correct _ sc
  have hsim : ∀ sc ∈ L, sc.similarity = similarityOf c correct sc.letter := by
    intro sc hsc
    obtain ⟨l, _, _, hs⟩ := (hmem sc).mp hsc
    have := scoreLetter_similarity c correct l sc hs
    rw [this.2, this.1]
  have hsorted : L.Pairwise (fun a b => b.similarity ≤ a.similarity) := by
    rw [← hL]
    exact sortBySimilarity_sorted _
  obtain ⟨k, hk⟩ := sliceTo_eq_take count L
  rw [hgen, hk]
  have hsplit : L = L.take k ++ L.drop k := (List.take_append_drop k L).symm
  rw [hsplit, List.pairwise_append] at hsorted
  constructor
  · rw [List.pairwise_map]
    refine hsorted.1.imp_of_mem ?_
    intro a b ha hb hab
    rw [← hsim a (List.mem_of_mem_take ha), ← hsim b (List.mem_of_mem_take hb)]
    exact hab
  · intro x hx y hy hyc hyr hnot
    rw [List.mem_map] at hx
    obtain ⟨sx, hsx, rfl⟩ := hx
    have hys : (scoreLetter c correct y).isSome = true := by
      rw [scoreLetter_isSome]; exact hyr
    obtain ⟨sy, hsy⟩ := Option.isSome_iff_exists.mp hys
    have hyL : sy ∈ L := (hmem sy).mpr ⟨y, hy, hyc, hsy⟩
    have hy2 := scoreLetter_similarity c correct y sy hsy
    have hydrop : sy ∈ L.drop k := by
      rw [hsplit, List.mem_append] at hyL
      rcases hyL with h1 | h1
      · exact absurd (List.mem_map.mpr ⟨sy, h1, hy2.1⟩) hnot
      · exact h1
    have := hsorted.2.2 sx hsx sy hydrop
    rw [hsim sx (List.mem_of_mem_take hsx), hy2.2] at this
    exact this

/-- C28, for the letter a and two distractors from the default candidates: e,
a known confusion of a, comes first, then b. -/
theorem generateDistractors_most_similar_witness :
    generateDistractors (some "a") 2 none = ["e", "b"] ∧
    (generateDistractors (some "a") 2 none).Pairwise
      (fun x y => similarityOf "a" [1] y ≤ similarityOf "a" [1] x) :=
  ⟨by decide, (generateDistractors_most_similar "a" [1] 2 none (by decide)).1⟩

/-! ### Timers on error: the watchdog invariant -/

/-- A timer left in the table after a handle was cleared was in it before. -/
theorem mem_dropTimer {h : Option Nat} {l : List (Nat × TimerCallback)} {t : Nat × TimerCallback}
    (ht : t ∈ dropTimer h l) : t ∈ l := by
  cases h with
  | none => exact ht
  | some i => exact List.mem_of_mem_filter ht

theorem heldBy_dropTimer (h k : Option Nat) (l : List (Nat × TimerCallback)) (hl : HeldBy h l) :
    HeldBy h (dropTimer k l) :=
  fun t ht hw => hl t (mem_dropTimer ht) hw

theorem heldBy_none_iff (l : List (Nat × TimerCallback)) :
    HeldBy none l ↔ l.any (fun t => t.2.isWatchdog) = false := by
  rw [List.any_eq_false]
  constructor
  · intro h t ht hw
    exact absurd (h t ht hw) (by simp)
  · intro h t ht hw
    exact absurd hw (h t ht)

theorem dropTimer_held (h : Option Nat) (l : List (Nat × TimerCallback)) (hl : HeldBy h l) :
    (dropTimer h l).any (fun t => t.2.isWatchdog) = false := by
  rw [List.any_eq_false]
  intro t ht hw
  have h1 := hl t (mem_dropTimer ht) hw
  subst h1
  simp only [dropTimer, List.mem_filter] at ht
  simpa using ht.2

theorem any_watchdog_dropTimer (k : Option Nat) (l : List (Nat × TimerCallback))
    (hl : l.any (fun t => t.2.isWatchdog) = false) :
    (dropTimer k l).any (fun t => t.2.isWatchdog) = false := by
  rw [List.any_eq_false] at *
  exact fun t ht => hl t (mem_dropTimer ht)

theorem WatchdogQuiet.inv {s : State} (h : WatchdogQuiet s) : WatchdogInv s := by
  refine ⟨?_, ?_⟩
  · rw [h.2, heldBy_none_iff]
    exact h.1
  · rw [h.2]
    simp

theorem setLessonStatus_timers (st : LessonStatus) (f : Bool) (s : State) :
    (InstructionEngine._setLessonStatus st f s).timers =
      (if st = .ready ∨ st = .error then dropTimer s.initWatchdogId s.timers else s.timers) := by
  unfold InstructionEngine._setLessonStatus InstructionEngine._showInitError
  dsimp only
  split_ifs <;> simp_all [emit, clearInitWatchdog_timers]

theorem quiet_clearInitWatchdog (s : State) (h : HeldBy s.initWatchdogId s.timers) :
    WatchdogQuiet (InstructionEngine._clearInitWatchdog s) := by
  refine ⟨?_, by simp⟩
  unfold watchdogPending
  rw [clearInitWatchdog_timers]
  exact dropTimer_held _ _ h

theorem quiet_setLessonStatus (st : LessonStatus) (f : Bool) (s : State)
    (h : HeldBy s.initWatchdogId s.timers) (hst : st = .ready ∨ st = .error) :
    WatchdogQuiet (InstructionEngine._setLessonStatus st f s) := by
  refine ⟨?_, by simp [hst]⟩
  unfold watchdogPending
  rw [setLessonStatus_timers, if_pos hst]
  exact dropTimer_held _ _ h

theorem quiet_stop (s : State) (h : HeldBy s.initWatchdogId s.timers) :
    WatchdogQuiet (InstructionEngine.stop s) := by
  refine ⟨?_, by simp⟩
  unfold watchdogPending
  rw [stop_timers]
  exact any_watchdog_dropTimer _ _ (dropTimer_held _ _ (heldBy_dropTimer _ _ _ h))

theorem quiet_stopTimes (n : Nat) (s : State) (h : WatchdogQuiet s) :
    WatchdogQuiet (stopTimes n s) := by
  induction n generalizing s with
  | zero => exact h
  | succ n ih => exact ih _ (quiet_stop s h.inv.1)

theorem quiet_startLevel (env : Env) (id : String) (b : Bool) (s : State)
    (h : HeldBy s.initWatchdogId s.timers) :
    WatchdogQuiet (GameEngine.startLevel env id b s) := by
  unfold GameEngine.startLevel
  exact quiet_stopTimes _ _ (quiet_stop _ (by simpa using h))

theorem quiet_finish (env : Env) (s : State) (h : WatchdogInv s) :
    WatchdogQuiet (InstructionEngine.finish env s) := by
  unfold InstructionEngine.finish
  dsimp only
  have hheld : HeldBy (InstructionEngine._setLessonStatus .idle true s).initWatchdogId
      (InstructionEngine._setLessonStatus .idle true s).timers := by
    rw [setLessonStatus_timers]
    simpa using h.1
  split
  · rename_i hl
    simp only [setLessonStatus_fields] at hl
    have hnone : s.initWatchdogId = none := by
      cases hw : s.initWatchdogId with
      | none => rfl
      | some id =>
        have := (h.2 (by simp [hw])).2
        simp [hl] at this
    refine ⟨?_, by simp [hnone]⟩
    unfold watchdogPending
    rw [setLessonStatus_timers]
    have := h.1
    rw [hnone, heldBy_none_iff] at this
    simpa using this
  · exact quiet_startLevel _ _ _ _ hheld

theorem watchdogInv_of_frame {s t : State} (h : WatchdogInv s)
    (ht : ∀ x ∈ t.timers, x.2.isWatchdog = true → x ∈ s.timers)
    (hh : t.initWatchdogId = s.initWatchdogId) (hs : t.lessonStatus = s.lessonStatus)
    (hl : t.currentLevel = s.currentLevel) : WatchdogInv t := by
  refine ⟨fun x hx hw => ?_, ?_⟩
  · rw [hh]
    exact h.1 x (ht x hx hw) hw
  · rw [hh, hs, hl]
    exact h.2

theorem watchdogQuiet_of_frame {s t : State} (h : WatchdogQuiet s)
    (ht : ∀ x ∈ t.timers, x.2.isWatchdog = true → x ∈ s.timers)
    (hh : t.initWatchdogId = none) : WatchdogQuiet t := by
  refine ⟨?_, hh⟩
  have h1 := h.1
  unfold watchdogPending at *
  rw [List.any_eq_false] at *
  intro x hx hw
  exact h1 x (ht x hx hw) hw

theorem watchdogInv_playNextLetter (env : Env) (s : State) (h : WatchdogInv s) :
    WatchdogInv (InstructionEngine.playNextLetter env s).1 := by
  unfold InstructionEngine.playNextLetter
  split
  · exact (quiet_setLessonStatus _ _ _ h.1 (Or.inr rfl)).inv
  · split
    · exact (quiet_setLessonStatus _ _ _ h.1 (Or.inr rfl)).inv
    · split
      · exact (quiet_finish env s h).inv
      · split
        · exact h
        · split
          · exact h
          · dsimp only
            split
            · exact (quiet_setLessonStatus _ _ _ h.1 (Or.inr rfl)).inv
            · by_cases hload : s.lessonStatus = .loading
              · have hq := quiet_setLessonStatus .ready false s h.1 (Or.inl rfl)
                simp only [hload, if_true]
                refine (watchdogQuiet_of_frame hq ?_ ?_).inv
                · intro x hx _
                  split_ifs at hx <;> simpa using hx
                · split_ifs <;> simp
              · simp only [hload, if_false]
                refine watchdogInv_of_frame h ?_ ?_ ?_ ?_
                · intro x hx _
                  split_ifs at hx <;> simpa using hx
                · split_ifs <;> simp
                · split_ifs <;> simp
                · split_ifs <;> simp

theorem quiet_setLessonStatus_any (st : LessonStatus) (f : Bool) (s : State)
    (h : WatchdogQuiet s) : WatchdogQuiet (InstructionEngine._setLessonStatus st f s) := by
  by_cases hst : st = .ready ∨ st = .error
  · exact quiet_setLessonStatus st f s h.inv.1 hst
  · refine watchdogQuiet_of_frame h ?_ ?_
    · intro x hx _
      rw [setLessonStatus_timers, if_neg hst] at hx
      exact hx
    · simp [hst, h.2]

theorem quiet_startLesson_reset (env : Env) (level : Lesson) (options : StartOptions)
    (s : State) (h : HeldBy s.initWatchdogId s.timers) :
    WatchdogQuiet (InstructionEngine.startLesson_reset env level options s) := by
  unfold InstructionEngine.startLesson_reset InstructionEngine._resetInitUi
  dsimp only
  generalize hs3 : ({ (if (!options.keepRetry) = true then
      { emit (.lessonInit level.id options.reason) s with lessonInitRetryCount := 0 }
      else emit (.lessonInit level.id options.reason) s) with
      lessonInitToken := (if (!options.keepRetry) = true then
        { emit (.lessonInit level.id options.reason) s with lessonInitRetryCount := 0 }
        else emit (.lessonInit level.id options.reason) s).lessonInitToken + 1 } : State) = s3
  have h3 : HeldBy s3.initWatchdogId s3.timers := by
    rw [← hs3]
    split_ifs <;> simpa using h
  have h4 : WatchdogQuiet (if env.onInstructionScreen = true then InstructionEngine.stop s3
      else navigateTo "instruction-screen" s3) := by
    split_ifs
    · exact quiet_stop _ h3
    · exact quiet_stop _ (by simpa using h3)
  generalize (if env.onInstructionScreen = true then InstructionEngine.stop s3
      else navigateTo "instruction-screen" s3) = s4 at h4 ⊢
  have h5 : WatchdogQuiet
      ({ s4 with currentLevel := some level, currentLetterIdx := 0, hasStartedOnce := false }) :=
    watchdogQuiet_of_frame h4 (fun x hx _ => hx) h4.2
  have h6 := quiet_setLessonStatus_any .loading false _ h5
  exact watchdogQuiet_of_frame h6 (fun x hx _ => by simpa using hx) (by simpa using h6.2)

theorem watchdogInv_startInitWatchdog (tok : Nat) (s : State) (h : WatchdogQuiet s)
    (hst : s.lessonStatus = .loading) (hl : s.currentLevel.isSome = true) :
    WatchdogInv (InstructionEngine._startInitWatchdog tok s) := by
  have hq := quiet_clearInitWatchdog s h.inv.1
  refine ⟨?_, fun _ => by simp [hst, hl]⟩
  intro x hx hw
  simp only [InstructionEngine._startInitWatchdog, setTimeout, List.mem_append,
    List.mem_singleton] at hx ⊢
  rcases hx with hx | hx
  · have h1 := hq.1
    unfold watchdogPending at h1
    rw [List.any_eq_false] at h1
    exact absurd hw (h1 x hx)
  · rw [hx]

theorem watchdogInv_startLesson (env : Env) (level : Option Lesson) (options : StartOptions)
    (s : State) (h : WatchdogInv s) :
    WatchdogInv (InstructionEngine.startLesson env level options s) := by
  cases level with
  | none => exact (quiet_setLessonStatus _ _ _ h.1 (Or.inr rfl)).inv
  | some level =>
    unfold InstructionEngine.startLesson
    dsimp only
    split_ifs with hskip herr
    · exact watchdogInv_of_frame h (fun x hx _ => by simpa using hx) (by simp) (by simp) (by simp)
    · have hq := quiet_startLesson_reset env level options s h.1
      refine (quiet_setLessonStatus _ _ _ ?_ (Or.inr rfl)).inv
      simpa using hq.inv.1
    · have hq := quiet_startLesson_reset env level options s h.1
      have hf := startLesson_reset_fields env level options s
      exact watchdogInv_playNextLetter env _
        (watchdogInv_startInitWatchdog _ _ hq hf.1 (by simp [hf.2.2.1]))

theorem watchdogInv_clearTimeout (id : Option Nat) (s : State) (h : WatchdogInv s) :
    WatchdogInv (clearTimeout id s) :=
  watchdogInv_of_frame h (fun x hx _ => (timersWithin_clearTimeout id s).1 x hx)
    (by simp) (by simp) (by simp)

theorem watchdogInv_next (env : Env) (s : State) (h : WatchdogInv s) :
    WatchdogInv (InstructionEngine.next env s) := by
  unfold InstructionEngine.next
  dsimp only
  refine watchdogInv_playNextLetter env _ ?_
  exact watchdogInv_of_frame (watchdogInv_clearTimeout s.animationTimeout s h)
    (fun x hx _ => hx) rfl rfl rfl

theorem watchdogInv_repeat (env : Env) (s : State) (h : WatchdogInv s) :
    WatchdogInv (InstructionEngine.repeat env s) := by
  unfold InstructionEngine.repeat
  dsimp only
  have h1 := watchdogInv_clearTimeout s.animationTimeout s h
  split
  · exact (quiet_setLessonStatus _ _ _ h1.1 (Or.inr rfl)).inv
  · exact watchdogInv_startLesson env _ _ _ h1

theorem watchdogInv_skip (env : Env) (s : State) (h : WatchdogInv s) :
    WatchdogInv (InstructionEngine.skip env s) := by
  unfold InstructionEngine.skip
  dsimp only
  refine (quiet_finish env _ ?_).inv
  exact watchdogInv_of_frame (watchdogInv_clearTimeout s.animationTimeout s h)
    (fun x hx _ => hx) rfl rfl rfl

theorem watchdogInv_stop (s : State) (h : WatchdogInv s) :
    WatchdogInv (InstructionEngine.stop s) :=
  (quiet_stop s h.1).inv

theorem watchdogInv_onInitWatchdog (env : Env) (tok : Nat) (s : State) (h : WatchdogInv s) :
    WatchdogInv (InstructionEngine.onInitWatchdog env tok s) := by
  unfold InstructionEngine.onInitWatchdog
  by_cases h1 : s.lessonInitToken ≠ tok
  · rw [if_pos h1]; exact h
  · rw [if_neg h1]
    by_cases h2 : s.lessonStatus ≠ .loading
    · rw [if_pos h2]; exact h
    · rw [if_neg h2]
      cases hl : s.currentLevel with
      | none => exact (quiet_setLessonStatus _ _ _ h.1 (Or.inr rfl)).inv
      | some level =>
        dsimp only
        split_ifs
        · refine watchdogInv_startLesson env _ _ _ ?_
          exact watchdogInv_of_frame h (fun x hx _ => by simpa using hx) (by simp) (by simp)
            (by simp [hl])
        · exact (quiet_setLessonStatus _ _ _ h.1 (Or.inr rfl)).inv

theorem watchdogInv_onAutoAdvance (env : Env) (s : State) (h : WatchdogInv s) :
    WatchdogInv (InstructionEngine.onAutoAdvance env s) := by
  unfold InstructionEngine.onAutoAdvance
  split
  · exact h
  · split
    · exact h
    · split_ifs
      · exact watchdogInv_next env s h
      · exact h

theorem watchdogInv_fireTimer (env : Env) (id : Nat) (s : State) (h : WatchdogInv s) :
    WatchdogInv (fireTimer env id s) := by
  unfold fireTimer
  split
  · exact h
  · have h1 : WatchdogInv { s with timers := s.timers.filter (fun t => t.1 != id) } :=
      watchdogInv_of_frame h (fun x hx _ => List.mem_of_mem_filter hx) rfl rfl rfl
    dsimp only
    split
    · exact watchdogInv_onInitWatchdog env _ _ h1
    · exact watchdogInv_onAutoAdvance env _ h1
    · exact watchdogInv_of_frame h1 (fun x hx _ => hx) rfl rfl rfl

theorem watchdogInv_armTimer (s : State) (h : WatchdogInv s) :
    WatchdogInv (LessonPacer.armTimer s) := by
  refine watchdogInv_of_frame h ?_ rfl rfl rfl
  intro x hx hw
  simp only [LessonPacer.armTimer, setTimeout, List.mem_append, List.mem_singleton] at hx
  rcases hx with hx | hx
  · exact hx
  · rw [hx] at hw; cases hw

theorem watchdogInv_armAutoAdvance (snap : Snapshot) (s : State) (h : WatchdogInv s) :
    WatchdogInv (InstructionEngine.armAutoAdvance snap s) := by
  unfold InstructionEngine.armAutoAdvance
  split_ifs
  · exact h
  · refine watchdogInv_of_frame h ?_ rfl rfl rfl
    intro x hx hw
    simp only [setTimeout, List.mem_append, List.mem_singleton] at hx
    rcases hx with hx | hx
    · exact hx
    · rw [hx] at hw; cases hw

/-- Every transition keeps the invariant of the watchdog. -/
theorem watchdogInv_apply (op : Op) (s : State) (h : WatchdogInv s) :
    WatchdogInv (op.apply s) := by
  cases op with
  | start env level reason => exact watchdogInv_startLesson env level _ s h
  | startLesson env level options => exact watchdogInv_startLesson env level options s h
  | stop => exact watchdogInv_stop s h
  | next env => exact watchdogInv_next env s h
  | «repeat» env => exact watchdogInv_repeat env s h
  | skip env => exact watchdogInv_skip env s h
  | navigateTo screenId =>
    exact watchdogInv_stop _ (watchdogInv_of_frame h (fun x hx _ => by simpa using hx) (by simp) (by simp) (by simp))
  | timerFires env id => exact watchdogInv_fireTimer env id s h
  | continuationEnds snap => exact watchdogInv_armAutoAdvance snap s h
  | paceBegin shouldSpeak =>
    simp only [Op.apply, LessonPacer.paceBegin, AudioService.stop]
    split_ifs
    · exact watchdogInv_of_frame h (fun x hx _ => by simpa using hx) (by simp) (by simp) (by simp)
    · exact watchdogInv_armTimer s h
  | paceAfterSpeech b =>
    simp only [Op.apply, LessonPacer.paceAfterSpeech]
    split_ifs
    · exact watchdogInv_armTimer s h
    · exact h
  | pacerCancel =>
    exact watchdogInv_of_frame h (fun x hx _ => (timersWithin_cancel s).1 x hx)
      (by simp [Op.apply]) (by simp [Op.apply]) (by simp [Op.apply])
  | audioStop =>
    exact watchdogInv_of_frame h
      (fun x hx _ => by simpa [Op.apply, AudioService.stop] using hx)
      (by simp [Op.apply, AudioService.stop]) (by simp [Op.apply, AudioService.stop])
      (by simp [Op.apply, AudioService.stop])

theorem watchdogInv_run (ops : List Op) (s : State) (h : WatchdogInv s) :
    WatchdogInv (run ops s) := by
  induction ops generalizing s with
  | nil => exact h
  | cons op ops ih => exact ih _ (watchdogInv_apply op s h)

/-- Every reachable state satisfies the invariant of the watchdog. -/
theorem watchdogInv_reachable (s : State) (h : Reachable s) : WatchdogInv s := by
  obtain ⟨ops, rfl⟩ := h
  refine watchdogInv_run ops _ ⟨?_, ?_⟩
  · intro t ht
    simp [InstructionEngine.init] at ht
  · simp [InstructionEngine.init]

/-- Under the invariant, a state whose status is `error` has no watchdog timer
outstanding and no watchdog handle. -/
theorem watchdogInv_error (s : State) (h : WatchdogInv s) (he : s.lessonStatus = .error) :
    WatchdogQuiet s := by
  have hnone : s.initWatchdogId = none := by
    cases hw : s.initWatchdogId with
    | none => rfl
    | some id =>
      have := (h.2 (by simp [hw])).1
      rw [he] at this
      cases this
  refine ⟨?_, hnone⟩
  have := h.1
  rw [hnone, heldBy_none_iff] at this
  exact this

/-! ### Timers on error: the claims -/

/-- C26, on the code: `startLesson` without a lesson, called while the
auto-advance timer of the lesson a, b is armed, sets the status to `error` and
leaves that timer outstanding; `next` on a page without the cell container,
called while the intro phrase is paced, sets the status to `error` and leaves
the pacing timer outstanding. -/
theorem error_leaves_timers_outstanding :
    (InstructionEngine.startLesson envOk none {} awaitingAdvance).lessonStatus = .error ∧
    autoAdvancePending (InstructionEngine.startLesson envOk none {} awaitingAdvance) = true ∧
    (InstructionEngine.next envNoContainer pacingIntro).lessonStatus = .error ∧
    pacingPending (InstructionEngine.next envNoContainer pacingIntro) = true := by
  decide

/-- C26, amended: for every reachable state and every operation that leaves
`lessonStatus` at `error`, in the resulting state no watchdog timer is
outstanding and `initWatchdogId` is `null`. -/
theorem error_clears_watchdog (s : State) (hreach : Reachable s) (op : Op)
    (herr : (op.apply s).lessonStatus = .error) :
    watchdogPending (op.apply s) = false ∧ (op.apply s).initWatchdogId = none :=
  watchdogInv_error _ (watchdogInv_apply op s (watchdogInv_reachable s hreach)) herr

/-- C26, amended, on `next` called on a page without the cell container while
the intro phrase of the lesson a, b is paced. -/
theorem error_clears_watchdog_witness :
    watchdogPending (Op.apply (.next envNoContainer) pacingIntro) = false ∧
    (Op.apply (.next envNoContainer) pacingIntro).initWatchdogId = none :=
  error_clears_watchdog pacingIntro ⟨_, rfl⟩ (.next envNoContainer) (by decide)

/-! ### Symbol lookup of the sequencer and `resolveDots` -/

/-- C29, on the code: `resolveDots` gives the accented vowel á the pattern
1, 2, 3, 5, 6, but `playNextLetter` resolves no main-cell pattern for it, and
the first step of the level 11-2 stops after the phrase of the main label,
where the loop over the pattern throws. The same holds for every key of
`BRAILLE_ACCENTS`, `BRAILLE_MATH` and `BRAILLE_DIGITAL`; for the keys of
`BRAILLE_ALPHABET`, `BRAILLE_NUMBERS` and `BRAILLE_SYMBOLS` the two agree. -/
theorem accented_symbol_has_no_main_pattern :
    resolveDots (some "á") = some [1, 2, 3, 5, 6] ∧
    sequencerMainDots (some "á") = some none ∧
    (InstructionEngine.playNextLetter envOk
      (InstructionEngine._startInitWatchdog 1
        (InstructionEngine.startLesson_reset envOk lessonAccents {} InstructionEngine.init))).2 =
      some continuationAccent ∧
    renderUninterrupted pageOk continuationAccent =
      [.showPuppyMessage "Comencemos con la á", .speakAndWait "Comencemos con la á" "intro",
       .wait .INTRO_PAUSE, .speakAndWait "Letra á" "main_label"] ∧
    (∀ key ∈ resolveOnlyKeys, (resolveDots (some key)).isSome = true ∧
      sequencerMainDots (some key) = some none) ∧
    (∀ key ∈ sequencerKeys, (resolveDots (some key)).isSome = true ∧
      sequencerMainDots (some key) = some (resolveDots (some key))) := by
  decide

/-! ### State migration: the merged levels -/

/-- The call `Array.from(new Set(items))` keeps the elements of `items`. -/
theorem mem_uniqueInOrder (l : List String) (x : String) : x ∈ uniqueInOrder l ↔ x ∈ l := by
  induction l with
  | nil => simp [uniqueInOrder]
  | cons a l ih =>
    simp only [uniqueInOrder, List.mem_cons, List.mem_filter, ih]
    by_cases hx : x = a
    · simp [hx]
    · simp [hx]

/-- The call `Array.from(new Set(items))` has no duplicate. -/
theorem nodup_uniqueInOrder (l : List String) : (uniqueInOrder l).Nodup := by
  induction l with
  | nil => simp [uniqueInOrder]
  | cons a l ih =>
    simp only [uniqueInOrder, List.nodup_cons, List.mem_filter]
    exact ⟨by simp, ih.filter _⟩

/-- A list without duplicates is a prefix of its union with another list. -/
theorem uniqueInOrder_append (cur comp : List String) (h : cur.Nodup) :
    ∃ rest, uniqueInOrder (cur ++ comp) = cur ++ rest := by
  induction cur with
  | nil => exact ⟨_, rfl⟩
  | cons a cur ih =>
    obtain ⟨rest, hr⟩ := ih (List.nodup_cons.mp h).2
    refine ⟨rest.filter (fun y => y != a), ?_⟩
    have ha : a ∉ cur := (List.nodup_cons.mp h).1
    have hf : cur.filter (fun y => y != a) = cur := by
      rw [List.filter_eq_self]
      intro y hy
      simp only [bne_iff_ne, ne_eq]
      rintro rfl
      exact ha hy
    show uniqueInOrder (a :: (cur ++ comp)) = a :: cur ++ _
    simp only [uniqueInOrder, hr, List.filter_append, hf, List.cons_append]

/-- The block that merges `completedLevels` leaves the duplicate-free union in
`levelsCompleted` when the current list has no duplicate. -/
theorem migrateProgress_levels_merged (st : MigrationStore) (cur comp : List String)
    (hc : st.parsedProgress.read "completedLevels" = .arr comp)
    (hl : st.mergedProgress.read "levelsCompleted" = .arr cur) (hn : cur.Nodup) :
    (migrateProgress_levels st).mergedProgress.read "levelsCompleted" =
      .arr (uniqueInOrder (cur ++ comp)) := by
  unfold migrateProgress_levels
  rw [hc]
  simp only [hl]
  split_ifs with hlen
  · simp [Obj.read, Obj.set]
  · obtain ⟨rest, hr⟩ := uniqueInOrder_append cur comp hn
    have hrest : rest = [] := by
      have : (cur ++ rest).length = cur.length := by
        rw [← hr]
        simpa using hlen
      simpa using this
    rw [hr, hrest, List.append_nil]
    exact hl

/-- When the current `levelsCompleted` list has no duplicate, the result of
`migrateProgress` holds the duplicate-free union of that list and of
`completedLevels`. -/
theorem migrateProgress_merges_levels (parsedProgress defaultProgress : Obj)
    (cur comp : List String)
    (hc : parsedProgress.read "completedLevels" = .arr comp)
    (hl : (Obj.spread defaultProgress parsedProgress).read "levelsCompleted" = .arr cur)
    (hn : cur.Nodup) :
    (migrateProgress parsedProgress defaultProgress).1.read "levelsCompleted" =
      .arr (uniqueInOrder (cur ++ comp)) ∧
    (uniqueInOrder (cur ++ comp)).Nodup ∧
    ∀ id, id ∈ uniqueInOrder (cur ++ comp) ↔ id ∈ cur ∨ id ∈ comp := by
  refine ⟨?_, nodup_uniqueInOrder _, fun id => by rw [mem_uniqueInOrder, List.mem_append]⟩
  unfold migrateProgress migrateProgress_run
  dsimp only
  generalize hst0 : (⟨parsedProgress, defaultProgress,
    Obj.spread defaultProgress parsedProgress, false⟩ : MigrationStore) = st0
  have hm := migrateProgress_levels_merged st0 cur comp (by rw [← hst0]; exact hc)
    (by rw [← hst0]; exact hl) hn
  generalize migrateProgress_levels st0 = st1 at hm
  have hx := migrateProgress_xp_frame st1
  generalize migrateProgress_xp st1 = st2 at hx
  have hd1 := migrateProgress_delete_frame "xp" st2
  generalize migrateProgress_delete "xp" st2 = st3 at hd1
  have hd2 := migrateProgress_delete_frame "completedLevels" st3
  generalize migrateProgress_delete "completedLevels" st3 = st4 at hd2
  rw [← hm]
  unfold Obj.read
  rw [hd2.2.2.2.1 "levelsCompleted" (by decide), hd1.2.2.2.1 "levelsCompleted" (by decide),
    hx.2.2 "levelsCompleted" (by decide)]

end BrailleQuest
